import Mathlib

/-!
# ps-top: the key/value cache and the start-up of `ps-stats`

A shallow embedding of

* `key_value_cache/key_value_cache.go`: the type `KeyValueCache` with its
  constructor `NewKeyValueCache` and its methods `Get`, `Put`, `Statistics`;
* `cmd/ps-stats/ps-stats.go`: the function `main`, from what `flag.Parse()`
  makes of the command line (it rejects it, or it yields the flag values and
  the positional arguments) to the events `main` produces and its exit status;
  the piece of it that turns the connection flags into one call of the
  connector is `main_connect`.

Conventions of the embedding.

* A Go `map[string]string` is a `GoMap`, a list of key/value entries read from
  the front; the `nil` map is `none : Option GoMap`.
* Go's `int` has 64 bits: a value of it is an `Int` between `MinInt` and
  `MaxInt` (`IsInt`), and `x++` is `incr x`, which wraps from `MaxInt` to
  `MinInt`.
* A method with a pointer receiver takes the receiver's value and returns the
  new value next to its results.
* A Go `error` is an `Option String`: `none` is `nil`, `some text` is
  `errors.New(text)`.
* A run-time panic is an `Except.error` carrying the panic's text; the receiver
  returned next to it is what the memory holds when the panic is raised.
-/

namespace PsTop

deriving instance DecidableEq for Except

/-! ## Go maps -/

/-- Entries of a non-nil Go `map[string]string`.  A key is looked up from the
front of the list; an assignment keeps one entry a key. -/
structure GoMap where
  entries : List (String × String)
deriving DecidableEq, Repr

namespace GoMap

/-- Result of `make(map[string]string)`. -/
def make : GoMap := ⟨[]⟩

/-- Entry lookup in a list of entries. -/
def find : List (String × String) → String → Option String
  | [], _ => none
  | (k, v) :: rest, key => if k = key then some v else find rest key

/-- Entry assignment in a list of entries: the entry of `key` is replaced where
it stands, a new key is added at the end. -/
def assign : List (String × String) → String → String → List (String × String)
  | [], key, value => [(key, value)]
  | (k, v) :: rest, key, value =>
      if k = key then (key, value) :: rest else (k, v) :: assign rest key value

/-- The comma-ok read `v, ok := m[key]` of a non-nil map: `some v` when `ok`. -/
def lookup (m : GoMap) (key : String) : Option String := find m.entries key

/-- The statement `m[key] = value` on a non-nil map. -/
def insert (m : GoMap) (key value : String) : GoMap := ⟨assign m.entries key value⟩

end GoMap

/-- The comma-ok read `v, ok := m[key]` of a map that may be `nil`: reading the
`nil` map finds nothing. -/
def index (m : Option GoMap) (key : String) : Option String :=
  match m with
  | none => none
  | some m => m.lookup key

/-! ## Go's `int` -/

/-- The smallest value of a 64-bit `int`. -/
def MinInt : Int := -(2 ^ 63)

/-- The largest value of a 64-bit `int`. -/
def MaxInt : Int := 2 ^ 63 - 1

/-- The 64-bit two's complement value that stands for `x`. -/
def wrapInt (x : Int) : Int := (x + 2 ^ 63) % 2 ^ 64 - 2 ^ 63

/-- The statement `x++` on an `int`: one more, and `MinInt` after `MaxInt`. -/
def incr (x : Int) : Int := wrapInt (x + 1)

/-- The integers that an `int` variable can hold. -/
def IsInt (x : Int) : Prop := MinInt ≤ x ∧ x ≤ MaxInt

instance (x : Int) : Decidable (IsInt x) := by
  unfold IsInt
  infer_instance

/-! ## `key_value_cache.go` -/

/-- The struct `KeyValueCache`. -/
structure KeyValueCache where
  cache : Option GoMap
  readRequests : Int
  servedFromCache : Int
  writeRequests : Int
deriving DecidableEq, Repr

/-- `NewKeyValueCache()`: the zero value of the struct, so the map is `nil`. -/
def NewKeyValueCache : KeyValueCache :=
  { cache := none, readRequests := 0, servedFromCache := 0, writeRequests := 0 }

namespace KeyValueCache

/-- `(kvc *KeyValueCache) Get(key)`: the receiver afterwards, `result`, `err`. -/
def Get (kvc : KeyValueCache) (key : String) : KeyValueCache × String × Option String :=
  let kvc₁ : KeyValueCache :=
    match kvc.cache with
    | none =>
        { cache := some GoMap.make, readRequests := 0, servedFromCache := 0,
          writeRequests := 0 }
    | some _ => kvc
  let kvc₂ : KeyValueCache := { kvc₁ with readRequests := incr kvc₁.readRequests }
  match index kvc₂.cache key with
  | some result =>
      ({ kvc₂ with servedFromCache := incr kvc₂.servedFromCache }, result, none)
  | none => (kvc₂, "", some "Not found")

/-- `(kvc *KeyValueCache) Put(key, value)`: the receiver afterwards and the
value returned, or the panic of an assignment to an entry of the `nil` map,
which is raised after `writeRequests` was incremented. -/
def Put (kvc : KeyValueCache) (key value : String) : KeyValueCache × Except String String :=
  let kvc₁ : KeyValueCache := { kvc with writeRequests := incr kvc.writeRequests }
  match kvc₁.cache with
  | none => (kvc₁, Except.error "assignment to entry in nil map")
  | some m => ({ kvc₁ with cache := some (m.insert key value) }, Except.ok value)

/-- `(kvc *KeyValueCache) Statistics()`: the receiver afterwards and the three
values returned. -/
def Statistics (kvc : KeyValueCache) : KeyValueCache × (Int × Int × Int) :=
  (kvc, (kvc.readRequests, kvc.servedFromCache, kvc.writeRequests))

end KeyValueCache

/-- The three counters hold values of Go's `int`. -/
def KeyValueCache.Valid (kvc : KeyValueCache) : Prop :=
  IsInt kvc.readRequests ∧ IsInt kvc.servedFromCache ∧ IsInt kvc.writeRequests

instance (kvc : KeyValueCache) : Decidable kvc.Valid := by
  unfold KeyValueCache.Valid
  infer_instance

/-- One call of a method of the cache. -/
inductive Op where
  | Get (key : String)
  | Put (key value : String)
  | Statistics
deriving DecidableEq, Repr

/-- The receiver after one call.  A `Put` that panics leaves the receiver as
the panic found it (a caller that recovers goes on from there). -/
def step (kvc : KeyValueCache) : Op → KeyValueCache
  | Op.Get key => (kvc.Get key).1
  | Op.Put key value => (kvc.Put key value).1
  | Op.Statistics => kvc.Statistics.1

/-- The receiver after a sequence of calls, the first of the list first. -/
def run (kvc : KeyValueCache) (ops : List Op) : KeyValueCache := ops.foldl step kvc

/-- The cache states that a sequence of calls reaches from `NewKeyValueCache()`. -/
def Reachable (kvc : KeyValueCache) : Prop := ∃ ops, run NewKeyValueCache ops = kvc

/-! ## `ps-stats.go` -/

/-- Values of the flag variables once `flag.Parse()` has run.  Each `flag.String`,
`flag.Int`, `flag.Bool` pointer is non-nil and is read through. -/
structure Flags where
  cpuprofile : String
  flag_debug : Bool
  flag_defaults_file : String
  flag_help : Bool
  flag_host : String
  flag_limit : Int
  flag_password : String
  flag_port : Int
  flag_socket : String
  flag_totals : Bool
  flag_user : String
  flag_version : Bool
  flag_view : String
deriving DecidableEq, Repr

/-- What the program runs in: the results of `lib.MyName()` and
`version.Version()`, the error of `os.Create(path)` (`none` when the file is
created), and the status with which the `flag` package ends the process on
`-h` (0 since Go 1.15, 2 before). -/
structure Env where
  MyName : String
  Version : String
  Create : String → Option String
  ErrHelpStatus : Int

/-- The two failures of `strconv.Atoi`. -/
inductive NumError where
  | ErrSyntax
  | ErrRange
deriving DecidableEq, Repr

/-- What `flag.Parse()` (line 69) makes of the command line: it rejects it (a
flag that is not defined, a value that does not parse, a value that is
missing), prints `message` with the usage and ends the process with status 2;
or it meets `-h`, which `ps-stats` does not define, prints the usage and ends
the process; or it sets the flag variables and leaves the positional arguments
in `flag.Args()`. -/
inductive CommandLine where
  | rejected (message : String)
  | helpRequested
  | parsed (f : Flags) (args : List String)
deriving DecidableEq, Repr

/-- What `main` does to the outside, in the order it does it.  The connector and
the application are collaborators: a call of theirs is one event. -/
inductive Event where
  /-- The error and the usage that `flag.Parse()` prints for a command line it
  rejects. -/
  | FlagError (message : String)
  /-- The usage that `flag.Parse()` prints on `-h`. -/
  | FlagUsage
  /-- `usage()`. -/
  | usage
  /-- `fmt.Println(line)`. -/
  | Println (line : String)
  /-- `lib.Logger.Println(line)`. -/
  | LoggerPrintln (line : String)
  /-- `log.Fatal(text, err)` for an error of `strconv.Atoi`. -/
  | FatalAtoi (text : String) (err : NumError)
  /-- `log.Fatal(err)` for an error of `os.Create`. -/
  | FatalCreate (err : String)
  /-- `pprof.StartCPUProfile(f)` on the file created at `path`. -/
  | StartCPUProfile (path : String)
  /-- The deferred `pprof.StopCPUProfile()`. -/
  | StopCPUProfile
  /-- `lib.Logger.EnableLogging(true)`. -/
  | EnableLogging
  /-- `connector.ConnectByComponents(components)`. -/
  | ConnectByComponents (components : GoMap)
  /-- `connector.ConnectByDefaultsFile(defaults_file)`. -/
  | ConnectByDefaultsFile (defaults_file : String)
  /-- `app.Setup(connector.Handle(), delay, count, true, limit, view, totals)`. -/
  | AppSetup (delay count limit : Int) (view : String) (totals : Bool)
  /-- `app.Run()`. -/
  | AppRun
  /-- `app.Cleanup()`. -/
  | AppCleanup
deriving DecidableEq, Repr

/-- A piece of `main`: the events it produces, then either the value the
program goes on with, or the status the process ends with there (`os.Exit(1)`
and `log.Fatal` end it with 1, a `return` from `main` with 0). -/
abbrev Proc (α : Type) := List Event × Except Int α

/-- `fmt.Sprintf("%d", n)`: decimal digits, with a leading `-` below zero. -/
def Sprintf_d (n : Int) : String := toString n

/-- Lines 119-155 of `main`: from the connection flags to the call of the
connector. -/
def main_connect (env : Env) (f : Flags) : Proc Unit :=
  let defaults_file : String := ""
  if f.flag_host ≠ "" ∨ f.flag_socket ≠ "" then
    let t₀ := [Event.LoggerPrintln "--host= or --socket= defined"]
    let components := GoMap.make
    if f.flag_host ≠ "" ∧ f.flag_socket ≠ "" then
      (t₀ ++ [Event.Println (env.MyName ++ ": Do not specify --host and --socket together")],
        Except.error 1)
    else
      let components := if f.flag_host ≠ "" then components.insert "host" f.flag_host
        else components
      let rest : GoMap → Proc Unit := fun components =>
        let components := if f.flag_socket ≠ "" then components.insert "socket" f.flag_socket
          else components
        let components := if f.flag_user ≠ "" then components.insert "user" f.flag_user
          else components
        let components := if f.flag_password ≠ "" then
            components.insert "password" f.flag_password
          else components
        (t₀ ++ [Event.ConnectByComponents components], Except.ok ())
      if f.flag_port ≠ 0 then
        if f.flag_socket = "" then
          rest (components.insert "port" (Sprintf_d f.flag_port))
        else
          (t₀ ++ [Event.Println (env.MyName ++ ": Do not specify --socket and --port together")],
            Except.error 1)
      else
        rest components
  else
    if f.flag_defaults_file ≠ "" then
      let defaults_file := f.flag_defaults_file
      ([Event.LoggerPrintln "--defaults-file defined",
        Event.ConnectByDefaultsFile defaults_file], Except.ok ())
    else
      ([Event.LoggerPrintln "connecting by implicit defaults file",
        Event.ConnectByDefaultsFile defaults_file], Except.ok ())

/-- `strconv.Atoi(s)` where `int` has 64 bits: an optional sign and then one or
more decimal digits, nothing else; a value outside the 64-bit range is an
error as well. -/
def Atoi (s : String) : Except NumError Int :=
  let signed : Bool × List Char :=
    match s.toList with
    | '-' :: digits => (true, digits)
    | '+' :: digits => (false, digits)
    | digits => (false, digits)
  if signed.2 = [] ∨ ¬ signed.2.all Char.isDigit then Except.error NumError.ErrSyntax
  else
    let n : Nat := signed.2.foldl (fun acc ch => 10 * acc + (ch.toNat - '0'.toNat)) 0
    let v : Int := if signed.1 then -(n : Int) else (n : Int)
    if v < -(2 ^ 63 : Int) ∨ (2 ^ 63 : Int) - 1 < v then Except.error NumError.ErrRange
    else Except.ok v

/-- Lines 71-93 of `main`: from the positional arguments `flag.Args()` to
`delay` and `count`. -/
def main_args (args : List String) : Proc (Int × Int) :=
  if 2 < args.length then ([Event.usage], Except.error 1)
  else
    match (if 1 ≤ args.length then Atoi (args.getD 0 "") else Except.ok 1) with
    | Except.error err => ([Event.FatalAtoi "Unable to parse delay: " err], Except.error 1)
    | Except.ok delay =>
      match (if 2 ≤ args.length then Atoi (args.getD 1 "") else Except.ok 0) with
      | Except.error err => ([Event.FatalAtoi "Unable to parse count: " err], Except.error 1)
      | Except.ok count => ([], Except.ok (delay, count))

/-- Lines 95-103 of `main`: the CPU profile.  The value says whether the
deferred `pprof.StopCPUProfile()` is pending. -/
def main_cpuprofile (env : Env) (f : Flags) : Proc Bool :=
  if f.cpuprofile ≠ "" then
    match env.Create f.cpuprofile with
    | some err => ([Event.FatalCreate err], Except.error 1)
    | none => ([Event.StartCPUProfile f.cpuprofile], Except.ok true)
  else ([], Except.ok false)

/-- The deferred calls that run when `main` returns. -/
def deferred (profiling : Bool) : List Event :=
  if profiling then [Event.StopCPUProfile] else []

/-- Lines 105-115 of `main`: `--debug`, `--version`, `--help`. -/
def main_info (env : Env) (f : Flags) (profiling : Bool) : Proc Unit :=
  let t₀ := if f.flag_debug then [Event.EnableLogging] else []
  if f.flag_version then
    (t₀ ++ [Event.Println (env.MyName ++ " version " ++ env.Version)] ++ deferred profiling,
      Except.error 0)
  else if f.flag_help then
    (t₀ ++ [Event.usage] ++ deferred profiling, Except.error 0)
  else (t₀, Except.ok ())

/-- One piece of `main` after another: the second runs when the first has not
ended the process. -/
def Proc.andThen {α β : Type} (p : Proc α) (k : α → Proc β) : Proc β :=
  match p.2 with
  | Except.error status => (p.1, Except.error status)
  | Except.ok a => (p.1 ++ (k a).1, (k a).2)

/-- Lines 71-163 of `main`: what follows `flag.Parse()` on a command line it
accepts. -/
def main_parsed (env : Env) (f : Flags) (args : List String) : Proc Unit :=
  Proc.andThen (main_args args) fun dc =>
  Proc.andThen (main_cpuprofile env f) fun profiling =>
  Proc.andThen (main_info env f profiling) fun _ =>
  Proc.andThen ([Event.LoggerPrintln ("Starting " ++ env.MyName)], Except.ok ()) fun _ =>
  Proc.andThen (main_connect env f) fun _ =>
  ([Event.AppSetup dc.1 dc.2 f.flag_limit f.flag_view f.flag_totals, Event.AppRun,
    Event.AppCleanup, Event.LoggerPrintln ("Terminating " ++ env.MyName)] ++ deferred profiling,
    Except.ok ())

/-- The function `main`: `flag.Parse()`, which ends the process with status 2
on a command line it rejects and with the status of the `flag` package on
`-h`, and then the rest. -/
def main (env : Env) (cmd : CommandLine) : Proc Unit :=
  match cmd with
  | CommandLine.rejected message => ([Event.FlagError message], Except.error 2)
  | CommandLine.helpRequested => ([Event.FlagUsage], Except.error env.ErrHelpStatus)
  | CommandLine.parsed f args => main_parsed env f args

/-- The exit status of the process. -/
def exitStatus {α : Type} (p : Proc α) : Int :=
  match p.2 with
  | Except.error status => status
  | Except.ok _ => 0

/-- The calls of the connector among the events. -/
def connectorCalls (t : List Event) : List Event :=
  t.filter fun e =>
    match e with
    | Event.ConnectByComponents _ => true
    | Event.ConnectByDefaultsFile _ => true
    | _ => false

/-! ## Predicates of the statements, and sample inputs -/

/-- No counter of `after` is below its value in `before`. -/
def CountersNonDecreasing (before after : KeyValueCache) : Prop :=
  before.readRequests ≤ after.readRequests ∧
  before.servedFromCache ≤ after.servedFromCache ∧
  before.writeRequests ≤ after.writeRequests

instance (before after : KeyValueCache) : Decidable (CountersNonDecreasing before after) := by
  unfold CountersNonDecreasing
  infer_instance

/-- The hits never exceed the reads. -/
def ServedLeRead (kvc : KeyValueCache) : Prop := kvc.servedFromCache ≤ kvc.readRequests

instance (kvc : KeyValueCache) : Decidable (ServedLeRead kvc) := by
  unfold ServedLeRead
  infer_instance

/-- While the map is `nil` no read has been counted. -/
def FreshCounters (kvc : KeyValueCache) : Prop :=
  kvc.cache = none → kvc.readRequests = 0 ∧ kvc.servedFromCache = 0

/-- The two conflicts of the connection flags: `--host` with `--socket`, and
`--socket` with `--port`. -/
def Conflict (f : Flags) : Prop :=
  (f.flag_host ≠ "" ∧ f.flag_socket ≠ "") ∨ (f.flag_socket ≠ "" ∧ f.flag_port ≠ 0)

instance (f : Flags) : Decidable (Conflict f) := by
  unfold Conflict
  infer_instance

/-- Whether `strconv.Atoi(s)` returns without an error. -/
def parses (s : String) : Bool :=
  match Atoi s with
  | Except.ok _ => true
  | Except.error _ => false

/-- The positional arguments that end the process: more than two of them, or a
first or a second one that `strconv.Atoi` rejects. -/
def ArgsError (args : List String) : Prop :=
  2 < args.length ∨ (1 ≤ args.length ∧ parses (args.getD 0 "") = false) ∨
    (2 ≤ args.length ∧ parses (args.getD 1 "") = false)

instance (args : List String) : Decidable (ArgsError args) := by
  unfold ArgsError
  infer_instance

/-- A CPU profile is asked for and its file cannot be created. -/
def ProfileError (env : Env) (f : Flags) : Prop :=
  f.cpuprofile ≠ "" ∧ env.Create f.cpuprofile ≠ none

instance (env : Env) (f : Flags) : Decidable (ProfileError env f) := by
  unfold ProfileError
  infer_instance

/-- Number of `Get` calls in a sequence of calls. -/
def countGets : List Op → Nat
  | [] => 0
  | Op.Get _ :: ops => countGets ops + 1
  | _ :: ops => countGets ops

/-- Number of `Put` calls in a sequence of calls. -/
def countPuts : List Op → Nat
  | [] => 0
  | Op.Put _ _ :: ops => countPuts ops + 1
  | _ :: ops => countPuts ops

/-- Number of `Get` calls in a sequence of calls whose key is among `seen` or
was passed to a `Put` earlier in the sequence. -/
def countHits (seen : List String) : List Op → Nat
  | [] => 0
  | Op.Get key :: ops => (if key ∈ seen then 1 else 0) + countHits seen ops
  | Op.Put key _ :: ops => countHits (key :: seen) ops
  | Op.Statistics :: ops => countHits seen ops

/-- Value of the most recent `Put` of `key` in a sequence of calls, if any. -/
def lastPut (key : String) : List Op → Option String
  | [] => none
  | Op.Put k v :: ops =>
      match lastPut key ops with
      | some later => some later
      | none => if k = key then some v else none
  | _ :: ops => lastPut key ops

/-- After at most `n` calls: the counters lie between 0 and `n`, and the hits
do not exceed the reads. -/
def CountersWithin (kvc : KeyValueCache) (n : Int) : Prop :=
  0 ≤ kvc.servedFromCache ∧ kvc.servedFromCache ≤ kvc.readRequests ∧ kvc.readRequests ≤ n ∧
  0 ≤ kvc.writeRequests ∧ kvc.writeRequests ≤ n

/-- A sample environment. -/
def env0 : Env := ⟨"ps-stats", "0.1", fun _ => none, 0⟩

/-- The flags of a command line without options. -/
def flags0 : Flags := ⟨"", false, "", false, "", 0, "", 0, "", false, "", false, ""⟩

/-- The flags of `--host=db1 --port=3307`. -/
def flags1 : Flags := { flags0 with flag_host := "db1", flag_port := 3307 }

/-- A cache with an allocated store holding one entry. -/
def kvc0 : KeyValueCache :=
  { cache := some ⟨[("a", "old")]⟩, readRequests := 3, servedFromCache := 1, writeRequests := 1 }

/-- A cache with an allocated store whose `readRequests` and `writeRequests`
hold the largest `int`. -/
def kvcMax : KeyValueCache :=
  { cache := some ⟨[("a", "old")]⟩, readRequests := MaxInt, servedFromCache := 1,
    writeRequests := MaxInt }

end PsTop

namespace PsTop
open KeyValueCache

/-! ## Lemmas on Go maps -/

theorem GoMap.find_assign_self (l : List (String × String)) (key value : String) :
    GoMap.find (GoMap.assign l key value) key = some value := by
  induction l with
  | nil => simp [GoMap.assign, GoMap.find]
  | cons e rest ih =>
    obtain ⟨k, v⟩ := e
    by_cases h : k = key
    · simp [GoMap.assign, GoMap.find, h]
    · simp [GoMap.assign, GoMap.find, h, ih]

theorem GoMap.find_assign_ne (l : List (String × String)) (key value other : String)
    (h : other ≠ key) :
    GoMap.find (GoMap.assign l key value) other = GoMap.find l other := by
  induction l with
  | nil => simp [GoMap.assign, GoMap.find, Ne.symm h]
  | cons e rest ih =>
    obtain ⟨k, v⟩ := e
    by_cases hk : k = key
    · subst hk
      simp [GoMap.assign, GoMap.find, Ne.symm h]
    · by_cases ho : k = other
      · subst ho
        simp [GoMap.assign, GoMap.find, hk]
      · simp [GoMap.assign, GoMap.find, hk, ho, ih]

theorem GoMap.assign_assign (l : List (String × String)) (key value : String) :
    GoMap.assign (GoMap.assign l key value) key value = GoMap.assign l key value := by
  induction l with
  | nil => simp [GoMap.assign]
  | cons e rest ih =>
    obtain ⟨k, v⟩ := e
    by_cases h : k = key
    · simp [GoMap.assign, h]
    · simp [GoMap.assign, h, ih]

theorem GoMap.lookup_insert_self (m : GoMap) (key value : String) :
    (m.insert key value).lookup key = some value :=
  GoMap.find_assign_self m.entries key value

theorem GoMap.lookup_insert_ne (m : GoMap) (key value other : String) (h : other ≠ key) :
    (m.insert key value).lookup other = m.lookup other :=
  GoMap.find_assign_ne m.entries key value other h

theorem GoMap.insert_insert (m : GoMap) (key value : String) :
    (m.insert key value).insert key value = m.insert key value := by
  simp [GoMap.insert, GoMap.assign_assign]

/-! ## Go's `int`: lemmas -/

theorem incr_of_ne_MaxInt (x : Int) (h : IsInt x) (hx : x ≠ MaxInt) : incr x = x + 1 := by
  unfold IsInt MinInt MaxInt at *
  unfold incr wrapInt
  omega

theorem incr_MaxInt : incr MaxInt = MinInt := by decide

theorem IsInt_incr (x : Int) : IsInt (incr x) := by
  unfold IsInt MinInt MaxInt incr wrapInt
  omega

theorem wrapInt_of_IsInt (x : Int) (h : IsInt x) : wrapInt x = x := by
  unfold IsInt MinInt MaxInt at h
  unfold wrapInt
  omega

theorem incr_wrapInt (x : Int) : incr (wrapInt x) = wrapInt (x + 1) := by
  unfold incr wrapInt
  omega

theorem incr_zero : incr 0 = 1 := by decide

theorem le_incr_iff (x : Int) (h : IsInt x) : x ≤ incr x ↔ x ≠ MaxInt := by
  unfold IsInt MinInt MaxInt at *
  unfold incr wrapInt
  omega

/-! ## The three methods, case by case -/

theorem KeyValueCache.Get_nil (kvc : KeyValueCache) (key : String) (h : kvc.cache = none) :
    kvc.Get key =
      ({ cache := some GoMap.make, readRequests := 1, servedFromCache := 0,
         writeRequests := 0 }, "", some "Not found") := by
  simp [Get, h, index, GoMap.make, GoMap.lookup, GoMap.find, incr_zero]

theorem KeyValueCache.Get_hit (kvc : KeyValueCache) (key : String) (m : GoMap) (v : String)
    (h : kvc.cache = some m) (hv : m.lookup key = some v) :
    kvc.Get key =
      ({ kvc with readRequests := incr kvc.readRequests,
                  servedFromCache := incr kvc.servedFromCache }, v, none) := by
  simp [Get, h, index, hv]

theorem KeyValueCache.Get_miss (kvc : KeyValueCache) (key : String) (m : GoMap)
    (h : kvc.cache = some m) (hv : m.lookup key = none) :
    kvc.Get key =
      ({ kvc with readRequests := incr kvc.readRequests }, "", some "Not found") := by
  simp [Get, h, index, hv]

theorem KeyValueCache.Put_nil (kvc : KeyValueCache) (key value : String) (h : kvc.cache = none) :
    kvc.Put key value =
      ({ kvc with writeRequests := incr kvc.writeRequests },
        Except.error "assignment to entry in nil map") := by
  simp [Put, h]

theorem KeyValueCache.Put_alloc (kvc : KeyValueCache) (key value : String) (m : GoMap)
    (h : kvc.cache = some m) :
    kvc.Put key value =
      ({ kvc with writeRequests := incr kvc.writeRequests,
                  cache := some (m.insert key value) }, Except.ok value) := by
  simp [Put, h]

theorem KeyValueCache.Get_after_Put (kvc : KeyValueCache) (key value : String) (m : GoMap)
    (h : kvc.cache = some m) :
    ((kvc.Put key value).1.Get key).2 = (value, none) ∧
    ((kvc.Put key value).1.Get key).1.readRequests =
      incr (kvc.Put key value).1.readRequests ∧
    ((kvc.Put key value).1.Get key).1.servedFromCache =
      incr (kvc.Put key value).1.servedFromCache := by
  rw [Put_alloc kvc key value m h]
  rw [Get_hit _ key (m.insert key value) value rfl (GoMap.lookup_insert_self m key value)]
  simp

/-! ## Sequences of calls -/

theorem run_append (kvc : KeyValueCache) (ops : List Op) (op : Op) :
    run kvc (ops ++ [op]) = step (run kvc ops) op := by
  simp [run, List.foldl_append]

theorem step_FreshCounters (kvc : KeyValueCache) (op : Op) (h : FreshCounters kvc) :
    FreshCounters (step kvc op) := by
  cases op with
  | Get key =>
    intro hn
    cases hc : kvc.cache with
    | none => simp [step, Get_nil kvc key hc] at hn
    | some m =>
      cases hv : m.lookup key with
      | none => simp [step, Get_miss kvc key m hc hv, hc] at hn
      | some v => simp [step, Get_hit kvc key m v hc hv, hc] at hn
  | Put key value =>
    intro hn
    cases hc : kvc.cache with
    | none =>
      have := h hc
      simpa [step, Put_nil kvc key value hc] using this
    | some m => simp [step, Put_alloc kvc key value m hc] at hn
  | Statistics => simpa [step, Statistics] using h

theorem run_FreshCounters (ops : List Op) : FreshCounters (run NewKeyValueCache ops) := by
  induction ops using List.reverseRecOn with
  | nil => intro _; simp [run, NewKeyValueCache]
  | append_singleton ops op ih =>
    rw [run_append]
    exact step_FreshCounters _ op ih

theorem step_CountersWithin (kvc : KeyValueCache) (op : Op) (n : Int)
    (h : CountersWithin kvc n) (hn : n < MaxInt) : CountersWithin (step kvc op) (n + 1) := by
  obtain ⟨h1, h2, h3, h4, h5⟩ := h
  have hr : incr kvc.readRequests = kvc.readRequests + 1 :=
    incr_of_ne_MaxInt _ (by unfold IsInt MinInt; unfold MaxInt at hn ⊢; omega) (by omega)
  have hs : incr kvc.servedFromCache = kvc.servedFromCache + 1 :=
    incr_of_ne_MaxInt _ (by unfold IsInt MinInt; unfold MaxInt at hn ⊢; omega) (by omega)
  have hw : incr kvc.writeRequests = kvc.writeRequests + 1 :=
    incr_of_ne_MaxInt _ (by unfold IsInt MinInt; unfold MaxInt at hn ⊢; omega) (by omega)
  unfold CountersWithin
  cases op with
  | Get key =>
    cases hc : kvc.cache with
    | none =>
      simp only [step, Get_nil kvc key hc]
      omega
    | some m =>
      cases hv : m.lookup key with
      | none =>
        simp only [step, Get_miss kvc key m hc hv, hr]
        omega
      | some v =>
        simp only [step, Get_hit kvc key m v hc hv, hr, hs]
        omega
  | Put key value =>
    cases hc : kvc.cache with
    | none =>
      simp only [step, Put_nil kvc key value hc, hw]
      omega
    | some m =>
      simp only [step, Put_alloc kvc key value m hc, hw]
      omega
  | Statistics =>
    simp only [step, Statistics]
    omega

theorem run_CountersWithin (ops : List Op) (h : (ops.length : Int) ≤ MaxInt) :
    CountersWithin (run NewKeyValueCache ops) ops.length := by
  induction ops using List.reverseRecOn with
  | nil => simp [run, NewKeyValueCache, CountersWithin]
  | append_singleton ops op ih =>
    rw [run_append]
    have hl : ((ops ++ [op]).length : Int) = (ops.length : Int) + 1 := by simp
    rw [hl] at h ⊢
    exact step_CountersWithin _ op _ (ih (by omega)) (by omega)

theorem step_index_of_ne_Put (kvc : KeyValueCache) (op : Op) (k : String)
    (hop : ∀ v, op ≠ Op.Put k v) (h : index kvc.cache k = none) :
    index (step kvc op).cache k = none := by
  cases op with
  | Get key =>
    cases hc : kvc.cache with
    | none => simp [step, Get_nil kvc key hc, index, GoMap.make, GoMap.lookup, GoMap.find]
    | some m =>
      cases hv : m.lookup key with
      | none => simpa [step, Get_miss kvc key m hc hv] using h
      | some v => simpa [step, Get_hit kvc key m v hc hv] using h
  | Put key value =>
    have hne : k ≠ key := by
      intro e
      exact hop value (by rw [e])
    cases hc : kvc.cache with
    | none => simp [step, Put_nil kvc key value hc, hc, index]
    | some m =>
      rw [hc] at h
      simp only [index] at h
      simp [step, Put_alloc kvc key value m hc, index, GoMap.lookup_insert_ne m key value k hne, h]
  | Statistics => simpa [step, Statistics] using h

theorem run_index_of_never_Put (ops : List Op) (k : String) (h : ∀ v, Op.Put k v ∉ ops) :
    index (run NewKeyValueCache ops).cache k = none := by
  induction ops using List.reverseRecOn with
  | nil => simp [run, NewKeyValueCache, index]
  | append_singleton ops op ih =>
    rw [run_append]
    apply step_index_of_ne_Put
    · intro v e
      exact h v (by simp [e])
    · apply ih
      intro v hv
      exact h v (by simp [hv])

/-! ## The cache: the claims -/

/-- C1 (the code departs from it): after `Put(k, v)` the next `Get(k)` should
return `(v, nil)` in every state reached from `NewKeyValueCache()`.  On the
fresh cache itself `Put("a", "b")` panics on the `nil` map after counting the
write, and the `Get("a")` that follows finds nothing: it returns `""` with the
error `Not found`, and the statistics read `(1, 0, 0)`. -/
theorem C1_Put_on_fresh_cache :
    Reachable NewKeyValueCache ∧
    (NewKeyValueCache.Put "a" "b").2 = Except.error "assignment to entry in nil map" ∧
    (NewKeyValueCache.Put "a" "b").1 =
      { cache := none, readRequests := 0, servedFromCache := 0, writeRequests := 1 } ∧
    ((NewKeyValueCache.Put "a" "b").1.Get "a").2 = ("", some "Not found") ∧
    ((NewKeyValueCache.Put "a" "b").1.Get "a").1.Statistics.2 = (1, 0, 0) := by
  refine ⟨⟨[], rfl⟩, ?_, ?_, ?_, ?_⟩ <;> decide

/-- C2: after any sequence of calls from `NewKeyValueCache()`, `Get(k)` for a
key `k` that no `Put` of the sequence was given returns `""` with the error
`Not found`, increments `readRequests` and leaves `servedFromCache` as it was;
the increment adds one to `readRequests` after every sequence of fewer than
`MaxInt` calls (a 64-bit counter cannot have reached its largest value). -/
theorem C2_Get_of_key_never_put (ops : List Op) (k : String) (h : ∀ v, Op.Put k v ∉ ops) :
    ((run NewKeyValueCache ops).Get k).2 = ("", some "Not found") ∧
    ((run NewKeyValueCache ops).Get k).1.readRequests =
      incr (run NewKeyValueCache ops).readRequests ∧
    ((run NewKeyValueCache ops).Get k).1.servedFromCache =
      (run NewKeyValueCache ops).servedFromCache ∧
    ((ops.length : Int) < MaxInt →
      ((run NewKeyValueCache ops).Get k).1.readRequests =
        (run NewKeyValueCache ops).readRequests + 1) := by
  have hidx := run_index_of_never_Put ops k h
  have hfresh := run_FreshCounters ops
  have hwithin : (ops.length : Int) < MaxInt →
      incr (run NewKeyValueCache ops).readRequests =
        (run NewKeyValueCache ops).readRequests + 1 := by
    intro hlen
    obtain ⟨h1, h2, h3, -, -⟩ := run_CountersWithin ops (by omega)
    exact incr_of_ne_MaxInt _ (by unfold IsInt MinInt; unfold MaxInt at hlen ⊢; omega) (by omega)
  generalize run NewKeyValueCache ops = kvc at hidx hfresh hwithin
  cases hc : kvc.cache with
  | none =>
    obtain ⟨hr, hs⟩ := hfresh hc
    rw [Get_nil kvc k hc]
    simp [hr, hs, incr_zero]
  | some m =>
    rw [hc] at hidx
    simp only [index] at hidx
    rw [Get_miss kvc k m hc hidx]
    exact ⟨rfl, rfl, rfl, hwithin⟩

/-- C2 after a `Get`, a `Put` of the key `"a"` and a `Statistics`, for the key `"c"`. -/
theorem C2_Get_of_key_never_put_witness :
    ((run NewKeyValueCache [Op.Get "a", Op.Put "a" "b", Op.Statistics]).Get "c").2 =
      ("", some "Not found") ∧
    ((run NewKeyValueCache [Op.Get "a", Op.Put "a" "b", Op.Statistics]).Get "c").1.readRequests =
      (run NewKeyValueCache [Op.Get "a", Op.Put "a" "b", Op.Statistics]).readRequests + 1 ∧
    ((run NewKeyValueCache [Op.Get "a", Op.Put "a" "b", Op.Statistics]).Get "c").1.servedFromCache =
      (run NewKeyValueCache [Op.Get "a", Op.Put "a" "b", Op.Statistics]).servedFromCache :=
  have h := C2_Get_of_key_never_put [Op.Get "a", Op.Put "a" "b", Op.Statistics] "c"
    (by intro v; simp)
  ⟨h.1, h.2.2.2 (by decide), h.2.2.1⟩

/-- C3, as the claim states it, fails: with `readRequests` at the largest `int`
and one hit counted, `servedFromCache ≤ readRequests` holds, and a `Get` (a
miss here) wraps `readRequests` to the smallest `int`, below `servedFromCache`. -/
theorem C3_Get_wraps_readRequests :
    kvcMax.Valid ∧ kvcMax.readRequests = 9223372036854775807 ∧
    kvcMax.servedFromCache = 1 ∧ ServedLeRead kvcMax ∧
    (step kvcMax (Op.Get "b")).readRequests = -9223372036854775808 ∧
    (step kvcMax (Op.Get "b")).servedFromCache = 1 ∧
    ¬ ServedLeRead (step kvcMax (Op.Get "b")) := by
  decide

/-- C3 (amended): `servedFromCache ≤ readRequests` holds in the state
`NewKeyValueCache()` returns; `Put` and `Statistics` keep it from every state,
and `Get` keeps it from every state whose `readRequests` is not the largest
`int`; so it holds in every state that a sequence of at most `MaxInt` calls
reaches from `NewKeyValueCache()`. -/
theorem C3_served_le_read :
    ServedLeRead NewKeyValueCache ∧
    (∀ kvc op, kvc.Valid → kvc.readRequests ≠ MaxInt → ServedLeRead kvc →
      ServedLeRead (step kvc op)) ∧
    (∀ kvc k v, ServedLeRead kvc → ServedLeRead (step kvc (Op.Put k v))) ∧
    (∀ kvc, ServedLeRead kvc → ServedLeRead (step kvc Op.Statistics)) ∧
    (∀ ops : List Op, (ops.length : Int) ≤ MaxInt → ServedLeRead (run NewKeyValueCache ops)) := by
  have hput : ∀ kvc k v, ServedLeRead kvc → ServedLeRead (step kvc (Op.Put k v)) := by
    intro kvc key value h
    unfold ServedLeRead at h ⊢
    cases hc : kvc.cache with
    | none => simpa [step, Put_nil kvc key value hc] using h
    | some m => simpa [step, Put_alloc kvc key value m hc] using h
  have hstat : ∀ kvc, ServedLeRead kvc → ServedLeRead (step kvc Op.Statistics) := by
    intro kvc h
    simpa [step, Statistics] using h
  refine ⟨by decide, ?_, hput, hstat, ?_⟩
  · intro kvc op hv hmax h
    cases op with
    | Get key =>
      obtain ⟨hr, hs, -⟩ := hv
      unfold ServedLeRead at h ⊢
      have hr' := incr_of_ne_MaxInt _ hr hmax
      cases hc : kvc.cache with
      | none => simp [step, Get_nil kvc key hc]
      | some m =>
        cases hl : m.lookup key with
        | none =>
          simp only [step, Get_miss kvc key m hc hl, hr']
          omega
        | some v =>
          have hs' := incr_of_ne_MaxInt _ hs (by unfold IsInt at hr; omega)
          simp only [step, Get_hit kvc key m v hc hl, hr', hs']
          omega
    | Put key value => exact hput kvc key value h
    | Statistics => exact hstat kvc h
  · intro ops hlen
    obtain ⟨-, h2, -, -, -⟩ := run_CountersWithin ops hlen
    exact h2

/-- C3 (amended) at a hit on a store that maps `"a"` to `"old"`. -/
theorem C3_served_le_read_witness :
    ServedLeRead kvc0 ∧ ServedLeRead (step kvc0 (Op.Get "a")) :=
  ⟨by decide, C3_served_le_read.2.1 kvc0 (Op.Get "a") (by decide) (by decide) (by decide)⟩

/-- C4, as the claim states it, fails: with `writeRequests` at the largest
`int`, `Put` on an allocated store succeeds and `writeRequests` wraps to the
smallest `int`: it is not one more than before. -/
theorem C4_Put_wraps_writeRequests :
    kvcMax.cache = some ⟨[("a", "old")]⟩ ∧ kvcMax.Valid ∧
    kvcMax.writeRequests = 9223372036854775807 ∧
    (kvcMax.Put "a" "new").2 = Except.ok "new" ∧
    (kvcMax.Put "a" "new").1.writeRequests = -9223372036854775808 ∧
    (kvcMax.Put "a" "new").1.writeRequests ≠ kvcMax.writeRequests + 1 := by
  decide

/-- C4 (amended): on a cache whose store is allocated, `Put(k, v)` succeeds,
returns `v`, increments `writeRequests` and leaves the store mapping `k` to
`v`, whatever `k` was mapped to before; the increment adds one to
`writeRequests` unless it is the largest `int`. -/
theorem C4_Put_on_allocated_store (kvc : KeyValueCache) (m : GoMap) (k v : String)
    (h : kvc.cache = some m) :
    (kvc.Put k v).2 = Except.ok v ∧
    (kvc.Put k v).1.writeRequests = incr kvc.writeRequests ∧
    index (kvc.Put k v).1.cache k = some v ∧
    (IsInt kvc.writeRequests → kvc.writeRequests ≠ MaxInt →
      (kvc.Put k v).1.writeRequests = kvc.writeRequests + 1) := by
  rw [Put_alloc kvc k v m h]
  refine ⟨rfl, rfl, by simp [index, GoMap.lookup_insert_self], ?_⟩
  intro hw hmax
  exact incr_of_ne_MaxInt _ hw hmax

/-- C4 (amended) on a store that maps `"a"` to `"old"`. -/
theorem C4_Put_on_allocated_store_witness :
    (kvc0.Put "a" "new").2 = Except.ok "new" ∧
    (kvc0.Put "a" "new").1.writeRequests = kvc0.writeRequests + 1 ∧
    index (kvc0.Put "a" "new").1.cache "a" = some "new" :=
  have h := C4_Put_on_allocated_store kvc0 ⟨[("a", "old")]⟩ "a" "new" rfl
  ⟨h.1, h.2.2.2 (by decide) (by decide), h.2.2.1⟩

/-- C5, as the claim states it, fails: in the state a `Put` on the fresh cache
leaves (store `nil`, `writeRequests = 1`), `Get` sets `writeRequests` back to 0. -/
theorem C5_Get_resets_counters :
    (NewKeyValueCache.Put "a" "b").1 =
      { cache := none, readRequests := 0, servedFromCache := 0, writeRequests := 1 } ∧
    ¬ CountersNonDecreasing
        { cache := none, readRequests := 0, servedFromCache := 0, writeRequests := 1 }
        (step { cache := none, readRequests := 0, servedFromCache := 0, writeRequests := 1 }
          (Op.Get "a")) := by
  constructor <;> decide

/-- C5 (amended): `Statistics` leaves the three counters as they are.  On a
cache whose store is allocated, `Get` leaves each counter at or above its
value before the call exactly when `readRequests` is not the largest `int`
and, if the key is present, `servedFromCache` is not either; `Put` does
exactly when `writeRequests` is not the largest `int`.  On a cache whose store
is not allocated `Get` sets the counters to `(1, 0, 0)`, so it leaves each
counter at or above its value exactly when they were at most `(1, 0, 0)`, as
on the cache that `NewKeyValueCache()` returns. -/
theorem C5_counters_non_decreasing :
    (∀ kvc, CountersNonDecreasing kvc (step kvc Op.Statistics)) ∧
    (∀ kvc key, kvc.Valid →
      (CountersNonDecreasing kvc (step kvc (Op.Get key)) ↔
        (kvc.cache = none ∧ kvc.readRequests ≤ 1 ∧ kvc.servedFromCache ≤ 0 ∧
            kvc.writeRequests ≤ 0) ∨
          (kvc.cache ≠ none ∧ kvc.readRequests ≠ MaxInt ∧
            (index kvc.cache key ≠ none → kvc.servedFromCache ≠ MaxInt)))) ∧
    (∀ kvc k v, kvc.Valid → kvc.cache ≠ none →
      (CountersNonDecreasing kvc (step kvc (Op.Put k v)) ↔ kvc.writeRequests ≠ MaxInt)) ∧
    (∀ key, CountersNonDecreasing NewKeyValueCache (step NewKeyValueCache (Op.Get key))) := by
  have hget : ∀ kvc key, kvc.Valid →
      (CountersNonDecreasing kvc (step kvc (Op.Get key)) ↔
        (kvc.cache = none ∧ kvc.readRequests ≤ 1 ∧ kvc.servedFromCache ≤ 0 ∧
            kvc.writeRequests ≤ 0) ∨
          (kvc.cache ≠ none ∧ kvc.readRequests ≠ MaxInt ∧
            (index kvc.cache key ≠ none → kvc.servedFromCache ≠ MaxInt))) := by
    intro kvc key hv
    obtain ⟨hr, hs, hw⟩ := hv
    have hr' := le_incr_iff _ hr
    have hs' := le_incr_iff _ hs
    unfold CountersNonDecreasing
    cases hc : kvc.cache with
    | none =>
      simp only [step, Get_nil kvc key hc]
      simp
    | some m =>
      cases hl : m.lookup key with
      | none =>
        simp only [step, Get_miss kvc key m hc hl, hr', index, hl]
        simp
      | some v =>
        simp only [step, Get_hit kvc key m v hc hl, hr', hs', index, hl]
        simp
  refine ⟨?_, hget, ?_, ?_⟩
  · intro kvc
    simp [CountersNonDecreasing, step, Statistics]
  · intro kvc k v hv hc
    obtain ⟨hr, hs, hw⟩ := hv
    have hw' := le_incr_iff _ hw
    unfold CountersNonDecreasing
    cases hc' : kvc.cache with
    | none => exact absurd hc' hc
    | some m =>
      simp only [step, Put_alloc kvc k v m hc', hw']
      simp
  · intro key
    exact (hget NewKeyValueCache key (by decide)).2 (Or.inl (by decide))

/-- C5 (amended) at a hit on an allocated store, at a `Put` on it, at the first
`Get` on the fresh cache, and at `Statistics` on a cache whose store is not
allocated. -/
theorem C5_counters_non_decreasing_witness :
    CountersNonDecreasing kvc0 (step kvc0 (Op.Get "a")) ∧
    CountersNonDecreasing kvc0 (step kvc0 (Op.Put "a" "new")) ∧
    CountersNonDecreasing NewKeyValueCache (step NewKeyValueCache (Op.Get "a")) ∧
    CountersNonDecreasing (NewKeyValueCache.Put "a" "b").1
      (step (NewKeyValueCache.Put "a" "b").1 Op.Statistics) :=
  ⟨(C5_counters_non_decreasing.2.1 kvc0 "a" (by decide)).2
      (Or.inr ⟨by decide, by decide, fun _ => by decide⟩),
   (C5_counters_non_decreasing.2.2.1 kvc0 "a" "new" (by decide) (by decide)).2 (by decide),
   C5_counters_non_decreasing.2.2.2 "a",
   C5_counters_non_decreasing.1 (NewKeyValueCache.Put "a" "b").1⟩

/-- C6, as the claim states it, fails: with `writeRequests` at the largest
`int`, two `Put("a", "new")` in a row both succeed and leave `writeRequests` at
the smallest `int` plus one, not at two more than before. -/
theorem C6_Put_twice_wraps :
    kvcMax.Valid ∧ kvcMax.writeRequests = 9223372036854775807 ∧
    (kvcMax.Put "a" "new").2 = Except.ok "new" ∧
    ((kvcMax.Put "a" "new").1.Put "a" "new").2 = Except.ok "new" ∧
    ((kvcMax.Put "a" "new").1.Put "a" "new").1.writeRequests = -9223372036854775807 ∧
    ((kvcMax.Put "a" "new").1.Put "a" "new").1.writeRequests ≠ kvcMax.writeRequests + 2 := by
  decide

/-- C6 (amended): on a cache on which `Put(k, v)` succeeds, a second `Put(k, v)`
right after it leaves the store as the first call left it, both calls return
`v`, and `writeRequests` has been incremented twice; that is two more than
before unless `writeRequests` was one of the two largest `int`s. -/
theorem C6_Put_twice (kvc : KeyValueCache) (k v : String)
    (h : ∃ r, (kvc.Put k v).2 = Except.ok r) :
    (kvc.Put k v).2 = Except.ok v ∧
    ((kvc.Put k v).1.Put k v).2 = Except.ok v ∧
    ((kvc.Put k v).1.Put k v).1.cache = (kvc.Put k v).1.cache ∧
    ((kvc.Put k v).1.Put k v).1.writeRequests = incr (incr kvc.writeRequests) ∧
    (IsInt kvc.writeRequests → kvc.writeRequests + 2 ≤ MaxInt →
      ((kvc.Put k v).1.Put k v).1.writeRequests = kvc.writeRequests + 2) := by
  cases hc : kvc.cache with
  | none =>
    obtain ⟨r, hr⟩ := h
    simp [Put_nil kvc k v hc] at hr
  | some m =>
    rw [Put_alloc kvc k v m hc]
    rw [Put_alloc _ k v (m.insert k v) rfl]
    refine ⟨rfl, rfl, by simp [GoMap.insert_insert], rfl, ?_⟩
    intro hw hmax
    show incr (incr kvc.writeRequests) = kvc.writeRequests + 2
    unfold IsInt MinInt MaxInt at *
    unfold incr wrapInt
    omega

/-- C6 (amended) on a store that maps `"a"` to `"old"`. -/
theorem C6_Put_twice_witness :
    (kvc0.Put "a" "new").2 = Except.ok "new" ∧
    ((kvc0.Put "a" "new").1.Put "a" "new").2 = Except.ok "new" ∧
    ((kvc0.Put "a" "new").1.Put "a" "new").1.cache = (kvc0.Put "a" "new").1.cache ∧
    ((kvc0.Put "a" "new").1.Put "a" "new").1.writeRequests = kvc0.writeRequests + 2 :=
  have h := C6_Put_twice kvc0 "a" "new" ⟨"new", by decide⟩
  ⟨h.1, h.2.1, h.2.2.1, h.2.2.2.2 (by decide) (by decide)⟩

/-- C7: `Statistics()` returns `(readRequests, servedFromCache, writeRequests)`,
in that order, and leaves the cache (the store and the three counters) as it
was. -/
theorem C7_Statistics (kvc : KeyValueCache) :
    kvc.Statistics.2 = (kvc.readRequests, kvc.servedFromCache, kvc.writeRequests) ∧
    kvc.Statistics.1 = kvc ∧
    step kvc Op.Statistics = kvc :=
  ⟨rfl, rfl, rfl⟩

/-! ## The connection set-up: the claims -/

/-- C8: with `host` and `socket` both non-empty, whatever `port`, `user`,
`password` and the defaults file are, the connection set-up prints the
host/socket conflict (not the socket/port one), ends the process with status 1,
and calls neither `ConnectByComponents` nor `ConnectByDefaultsFile`. -/
theorem C8_host_socket_conflict (env : Env) (f : Flags)
    (hh : f.flag_host ≠ "") (hs : f.flag_socket ≠ "") :
    main_connect env f =
      ([Event.LoggerPrintln "--host= or --socket= defined",
        Event.Println (env.MyName ++ ": Do not specify --host and --socket together")],
       Except.error 1) ∧
    connectorCalls (main_connect env f).1 = [] := by
  have h : main_connect env f =
      ([Event.LoggerPrintln "--host= or --socket= defined",
        Event.Println (env.MyName ++ ": Do not specify --host and --socket together")],
       Except.error 1) := by
    simp [main_connect, hh, hs]
  rw [h]
  exact ⟨rfl, rfl⟩

/-- C8 at `--host=db1 --socket=/tmp/s --port=3307`. -/
theorem C8_host_socket_conflict_witness :
    main_connect env0 { flags0 with flag_host := "db1", flag_socket := "/tmp/s", flag_port := 3307 } =
      ([Event.LoggerPrintln "--host= or --socket= defined",
        Event.Println (env0.MyName ++ ": Do not specify --host and --socket together")],
       Except.error 1) ∧
    connectorCalls (main_connect env0
      { flags0 with flag_host := "db1", flag_socket := "/tmp/s", flag_port := 3307 }).1 = [] :=
  C8_host_socket_conflict env0
    { flags0 with flag_host := "db1", flag_socket := "/tmp/s", flag_port := 3307 }
    (by decide) (by decide)

/-- C9: with `socket` non-empty, `host` empty and `port` non-zero, whatever
`user`, `password` and the defaults file are, the connection set-up prints the
socket/port conflict, ends the process with status 1, and calls no connector. -/
theorem C9_socket_port_conflict (env : Env) (f : Flags)
    (hs : f.flag_socket ≠ "") (hh : f.flag_host = "") (hp : f.flag_port ≠ 0) :
    main_connect env f =
      ([Event.LoggerPrintln "--host= or --socket= defined",
        Event.Println (env.MyName ++ ": Do not specify --socket and --port together")],
       Except.error 1) ∧
    connectorCalls (main_connect env f).1 = [] := by
  have h : main_connect env f =
      ([Event.LoggerPrintln "--host= or --socket= defined",
        Event.Println (env.MyName ++ ": Do not specify --socket and --port together")],
       Except.error 1) := by
    simp [main_connect, hh, hs, hp]
  rw [h]
  exact ⟨rfl, rfl⟩

/-- C9 at `--socket=/tmp/s --port=3307`. -/
theorem C9_socket_port_conflict_witness :
    main_connect env0 { flags0 with flag_socket := "/tmp/s", flag_port := 3307 } =
      ([Event.LoggerPrintln "--host= or --socket= defined",
        Event.Println (env0.MyName ++ ": Do not specify --socket and --port together")],
       Except.error 1) ∧
    connectorCalls (main_connect env0
      { flags0 with flag_socket := "/tmp/s", flag_port := 3307 }).1 = [] :=
  C9_socket_port_conflict env0 { flags0 with flag_socket := "/tmp/s", flag_port := 3307 }
    (by decide) (by decide) (by decide)

/-- C10: when the connection set-up calls `ConnectByComponents`, the map it
passes holds `"host"` (the host) exactly when the host is non-empty, `"socket"`
(the socket) exactly when the socket is non-empty, `"port"` (the port in
decimal) exactly when the port is non-zero, in which case the socket is empty,
`"user"` and `"password"` exactly when they are non-empty, and no other key;
no key is held twice. -/
theorem C10_components (env : Env) (f : Flags) (components : GoMap)
    (h : Event.ConnectByComponents components ∈ (main_connect env f).1) :
    main_connect env f =
      ([Event.LoggerPrintln "--host= or --socket= defined",
        Event.ConnectByComponents components], Except.ok ()) ∧
    components.lookup "host" = (if f.flag_host ≠ "" then some f.flag_host else none) ∧
    components.lookup "socket" = (if f.flag_socket ≠ "" then some f.flag_socket else none) ∧
    components.lookup "port" = (if f.flag_port ≠ 0 then some (Sprintf_d f.flag_port) else none) ∧
    (f.flag_port ≠ 0 → f.flag_socket = "") ∧
    components.lookup "user" = (if f.flag_user ≠ "" then some f.flag_user else none) ∧
    components.lookup "password" =
      (if f.flag_password ≠ "" then some f.flag_password else none) ∧
    (∀ key, key ∉ ["host", "socket", "port", "user", "password"] →
      components.lookup key = none) ∧
    (components.entries.map Prod.fst).Nodup := by
  have hsel : ¬ (f.flag_host = "" ∧ f.flag_socket = "") := by
    rintro ⟨hh, hs⟩
    by_cases hd : f.flag_defaults_file = "" <;> simp [main_connect, hh, hs, hd] at h
  unfold main_connect at h ⊢
  by_cases hh : f.flag_host = "" <;> by_cases hs : f.flag_socket = "" <;>
    by_cases hp : f.flag_port = 0 <;> by_cases hu : f.flag_user = "" <;>
    by_cases hw : f.flag_password = "" <;>
    first
    | (exfalso; apply hsel; constructor <;> assumption)
    | (simp [hh, hs, hp, hu, hw] at h; done)
    | (simp [hh, hs, hp, hu, hw] at h
       subst h
       simp [hh, hs, hp, hu, hw, GoMap.lookup, GoMap.insert, GoMap.assign, GoMap.find,
         GoMap.make]
       intro key h1 h2 h3 h4 h5
       simp [Ne.symm h1, Ne.symm h2, Ne.symm h3, Ne.symm h4, Ne.symm h5])

/-- C10 at `--host=db1 --port=3307`: the map passed is `host: db1, port: 3307`. -/
theorem C10_components_witness :
    Event.ConnectByComponents ⟨[("host", "db1"), ("port", "3307")]⟩ ∈
      (main_connect env0 flags1).1 ∧
    main_connect env0 flags1 =
      ([Event.LoggerPrintln "--host= or --socket= defined",
        Event.ConnectByComponents ⟨[("host", "db1"), ("port", "3307")]⟩], Except.ok ()) ∧
    GoMap.lookup ⟨[("host", "db1"), ("port", "3307")]⟩ "host" = some "db1" ∧
    GoMap.lookup ⟨[("host", "db1"), ("port", "3307")]⟩ "socket" = none ∧
    GoMap.lookup ⟨[("host", "db1"), ("port", "3307")]⟩ "port" = some "3307" ∧
    GoMap.lookup ⟨[("host", "db1"), ("port", "3307")]⟩ "user" = none ∧
    GoMap.lookup ⟨[("host", "db1"), ("port", "3307")]⟩ "password" = none ∧
    (∀ key, key ∉ ["host", "socket", "port", "user", "password"] →
      GoMap.lookup ⟨[("host", "db1"), ("port", "3307")]⟩ key = none) :=
  have h := C10_components env0 flags1 ⟨[("host", "db1"), ("port", "3307")]⟩ (by decide)
  ⟨by decide, h.1, h.2.1, h.2.2.1, h.2.2.2.1, h.2.2.2.2.2.1, h.2.2.2.2.2.2.1, h.2.2.2.2.2.2.2.1⟩

/-! ## `main` on sample command lines -/

theorem Atoi_samples :
    Atoi "2" = Except.ok 2 ∧ Atoi "-17" = Except.ok (-17) ∧ Atoi "+5" = Except.ok 5 ∧
    Atoi "x" = Except.error NumError.ErrSyntax ∧ Atoi "" = Except.error NumError.ErrSyntax ∧
    Atoi "-" = Except.error NumError.ErrSyntax ∧ Atoi "1_0" = Except.error NumError.ErrSyntax ∧
    Atoi "9223372036854775808" = Except.error NumError.ErrRange ∧
    Atoi "-9223372036854775808" = Except.ok (-9223372036854775808) := by
  decide

theorem main_args_samples :
    main_args ["2", "5"] = ([], Except.ok (2, 5)) ∧
    main_args [] = ([], Except.ok (1, 0)) ∧
    main_args ["x"] =
      ([Event.FatalAtoi "Unable to parse delay: " NumError.ErrSyntax], Except.error 1) ∧
    main_args ["a", "b", "c", "d"] = ([Event.usage], Except.error 1) := by
  decide

theorem main_sample :
    main env0 (CommandLine.parsed flags1 ["2", "5"]) =
      ([Event.LoggerPrintln "Starting ps-stats",
        Event.LoggerPrintln "--host= or --socket= defined",
        Event.ConnectByComponents ⟨[("host", "db1"), ("port", "3307")]⟩,
        Event.AppSetup 2 5 0 "" false, Event.AppRun, Event.AppCleanup,
        Event.LoggerPrintln "Terminating ps-stats"], Except.ok ()) := by
  decide

/-! ## The connection set-up: the defaults file -/

/-- C11: with `host` and `socket` both empty, whatever `port`, `user` and
`password` are, the connection set-up succeeds and calls
`ConnectByDefaultsFile` with the value of `--defaults-file` as it is (the empty
string when none is given); no `ConnectByComponents` call is made, and two
inputs that agree on the defaults file give the same result. -/
theorem C11_defaults_file (env : Env) (f : Flags)
    (hh : f.flag_host = "") (hs : f.flag_socket = "") :
    main_connect env f =
      ([Event.LoggerPrintln (if f.flag_defaults_file ≠ "" then "--defaults-file defined"
          else "connecting by implicit defaults file"),
        Event.ConnectByDefaultsFile f.flag_defaults_file], Except.ok ()) ∧
    connectorCalls (main_connect env f).1 = [Event.ConnectByDefaultsFile f.flag_defaults_file] ∧
    (∀ components, Event.ConnectByComponents components ∉ (main_connect env f).1) ∧
    (∀ (env' : Env) (f' : Flags), f'.flag_host = "" → f'.flag_socket = "" →
      f'.flag_defaults_file = f.flag_defaults_file → main_connect env' f' = main_connect env f) := by
  have key : ∀ (e : Env) (g : Flags), g.flag_host = "" → g.flag_socket = "" →
      main_connect e g =
        ([Event.LoggerPrintln (if g.flag_defaults_file ≠ "" then "--defaults-file defined"
            else "connecting by implicit defaults file"),
          Event.ConnectByDefaultsFile g.flag_defaults_file], Except.ok ()) := by
    intro e g hg hg'
    by_cases hd : g.flag_defaults_file = "" <;> simp [main_connect, hg, hg', hd]
  refine ⟨key env f hh hs, ?_, ?_, ?_⟩
  · rw [key env f hh hs]
    simp [connectorCalls]
  · intro components
    rw [key env f hh hs]
    simp
  · intro env' f' hh' hs' hd
    rw [key env f hh hs, key env' f' hh' hs', hd]

/-- C11 at `--port=3307 --user=root --password=pw` without a defaults file: the
path handed over is empty. -/
theorem C11_defaults_file_witness :
    main_connect env0 { flags0 with flag_port := 3307, flag_user := "root", flag_password := "pw" } =
      ([Event.LoggerPrintln "connecting by implicit defaults file",
        Event.ConnectByDefaultsFile ""], Except.ok ()) :=
  (C11_defaults_file env0
    { flags0 with flag_port := 3307, flag_user := "root", flag_password := "pw" } rfl rfl).1

/-- C12: when the connection set-up calls `ConnectByComponents`, the map it
passes never holds both `"host"` and `"socket"`, and never holds both `"port"`
and `"socket"`. -/
theorem C12_components_exclusive (env : Env) (f : Flags) (components : GoMap)
    (h : Event.ConnectByComponents components ∈ (main_connect env f).1) :
    ¬ ((components.lookup "host").isSome ∧ (components.lookup "socket").isSome) ∧
    ¬ ((components.lookup "port").isSome ∧ (components.lookup "socket").isSome) := by
  have hsel : ¬ (f.flag_host = "" ∧ f.flag_socket = "") := by
    rintro ⟨hh, hs⟩
    by_cases hd : f.flag_defaults_file = "" <;> simp [main_connect, hh, hs, hd] at h
  unfold main_connect at h
  by_cases hh : f.flag_host = "" <;> by_cases hs : f.flag_socket = "" <;>
    by_cases hp : f.flag_port = 0 <;> by_cases hu : f.flag_user = "" <;>
    by_cases hw : f.flag_password = "" <;>
    first
    | (exfalso; apply hsel; constructor <;> assumption)
    | (simp [hh, hs, hp, hu, hw] at h; done)
    | (simp [hh, hs, hp, hu, hw] at h
       subst h
       simp [GoMap.lookup, GoMap.insert, GoMap.assign, GoMap.find, GoMap.make])

/-- C12 at `--host=db1 --port=3307`: the map holds a host and a port, no socket. -/
theorem C12_components_exclusive_witness :
    ¬ ((GoMap.lookup ⟨[("host", "db1"), ("port", "3307")]⟩ "host").isSome ∧
       (GoMap.lookup ⟨[("host", "db1"), ("port", "3307")]⟩ "socket").isSome) ∧
    ¬ ((GoMap.lookup ⟨[("host", "db1"), ("port", "3307")]⟩ "port").isSome ∧
       (GoMap.lookup ⟨[("host", "db1"), ("port", "3307")]⟩ "socket").isSome) :=
  C12_components_exclusive env0 flags1 ⟨[("host", "db1"), ("port", "3307")]⟩ (by decide)

/-! ## The cache: allocation of the store, and what a call leaves alone -/

theorem step_cache_of_ne_Get (kvc : KeyValueCache) (op : Op) (hop : ∀ key, op ≠ Op.Get key)
    (h : kvc.cache = none) : (step kvc op).cache = none := by
  cases op with
  | Get key => exact absurd rfl (hop key)
  | Put key value => simp [step, Put_nil kvc key value h, h]
  | Statistics => simpa [step, Statistics] using h

theorem run_cache_of_no_Get (ops : List Op) (h : ∀ key, Op.Get key ∉ ops) :
    (run NewKeyValueCache ops).cache = none := by
  induction ops using List.reverseRecOn with
  | nil => rfl
  | append_singleton ops op ih =>
    rw [run_append]
    apply step_cache_of_ne_Get
    · intro key e
      exact h key (by simp [e])
    · apply ih
      intro key hk
      exact h key (by simp [hk])

/-- C15: `Put` on a cache whose store is not allocated fails (the assignment to
the `nil` map panics) and stores nothing, the store staying unallocated; that
is the case of the cache `NewKeyValueCache()` returns as long as no `Get` was
called on it, so a `Put` that succeeds comes after some `Get`; and `Get`
always leaves the store allocated. -/
theorem C15_Put_before_Get :
    (∀ (kvc : KeyValueCache) (k v : String), kvc.cache = none →
      (kvc.Put k v).2 = Except.error "assignment to entry in nil map" ∧
      (kvc.Put k v).1.cache = none ∧ index (kvc.Put k v).1.cache k = none) ∧
    (∀ ops : List Op, (∀ key, Op.Get key ∉ ops) → (run NewKeyValueCache ops).cache = none) ∧
    (∀ (ops : List Op) (k v r : String), ((run NewKeyValueCache ops).Put k v).2 = Except.ok r →
      ∃ key, Op.Get key ∈ ops) ∧
    (∀ (kvc : KeyValueCache) (key : String), (kvc.Get key).1.cache ≠ none) := by
  refine ⟨?_, run_cache_of_no_Get, ?_, ?_⟩
  · intro kvc k v h
    rw [Put_nil kvc k v h]
    simp [h, index]
  · intro ops k v r hr
    by_contra hne
    push_neg at hne
    have hc := run_cache_of_no_Get ops hne
    rw [Put_nil _ k v hc] at hr
    simp at hr
  · intro kvc key
    cases hc : kvc.cache with
    | none => simp [Get_nil kvc key hc]
    | some m =>
      cases hv : m.lookup key with
      | none => simp [Get_miss kvc key m hc hv, hc]
      | some v => simp [Get_hit kvc key m v hc hv, hc]

/-- C16: for every key, the first `Get` on the cache `NewKeyValueCache()`
returns allocates an empty store, returns `""` with the error `Not found`, and
leaves the statistics at `(1, 0, 0)`; on a cache whose store is allocated `Get`
initialises nothing: the cache afterwards is the cache before with
`readRequests` incremented and, on a hit, `servedFromCache` incremented, so
the store and `writeRequests` stay as they are; `readRequests`, when it was not
negative, is not zero afterwards, and `servedFromCache`, when it was not
negative, is zero afterwards only if it was zero and the key is absent. -/
theorem C16_Get_initialises_once :
    (∀ key : String,
      NewKeyValueCache.Get key =
        ({ cache := some GoMap.make, readRequests := 1, servedFromCache := 0,
           writeRequests := 0 }, "", some "Not found") ∧
      (NewKeyValueCache.Get key).1.Statistics.2 = (1, 0, 0)) ∧
    (∀ (kvc : KeyValueCache) (m : GoMap) (key : String), kvc.cache = some m →
      (kvc.Get key).1 =
        { kvc with
          readRequests := incr kvc.readRequests
          servedFromCache :=
            if m.lookup key = none then kvc.servedFromCache else incr kvc.servedFromCache } ∧
      (kvc.Get key).1.cache = some m ∧
      (kvc.Get key).1.writeRequests = kvc.writeRequests ∧
      (kvc.Valid → 0 ≤ kvc.readRequests → (kvc.Get key).1.readRequests ≠ 0) ∧
      (kvc.Valid → 0 ≤ kvc.servedFromCache → (kvc.Get key).1.servedFromCache = 0 →
        kvc.servedFromCache = 0 ∧ m.lookup key = none)) := by
  constructor
  · intro key
    rw [Get_nil NewKeyValueCache key rfl]
    exact ⟨rfl, rfl⟩
  · intro kvc m key hc
    have hpos : ∀ x : Int, IsInt x → 0 ≤ x → incr x ≠ 0 := by
      intro x hx h0
      unfold IsInt MinInt MaxInt at hx
      unfold incr wrapInt
      omega
    cases hv : m.lookup key with
    | none =>
      rw [Get_miss kvc key m hc hv]
      refine ⟨by simp, by simp [hc], rfl, ?_, ?_⟩
      · intro hval h0
        exact hpos _ hval.1 h0
      · intro _ _ hz
        exact ⟨hz, rfl⟩
    | some v =>
      rw [Get_hit kvc key m v hc hv]
      refine ⟨by simp, by simp [hc], rfl, ?_, ?_⟩
      · intro hval h0
        exact hpos _ hval.1 h0
      · intro hval h0 hz
        exact absurd hz (hpos _ hval.2.1 h0)

/-- C17: on a cache whose store is allocated, `Get(k)`, hit or miss, leaves the
store exactly as it was and `writeRequests` unchanged, and a second `Get(k)`
right after it returns the same value and the same error. -/
theorem C17_Get_leaves_store (kvc : KeyValueCache) (m : GoMap) (k : String)
    (h : kvc.cache = some m) :
    (kvc.Get k).1.cache = kvc.cache ∧
    (kvc.Get k).1.writeRequests = kvc.writeRequests ∧
    ((kvc.Get k).1.Get k).2 = (kvc.Get k).2 := by
  cases hv : m.lookup k with
  | none =>
    have h2 := Get_miss { kvc with readRequests := incr kvc.readRequests } k m h hv
    rw [Get_miss kvc k m h hv]
    exact ⟨rfl, rfl, by rw [h2]⟩
  | some v =>
    have h2 := Get_hit { kvc with readRequests := incr kvc.readRequests,
                                  servedFromCache := incr kvc.servedFromCache } k m v h hv
    rw [Get_hit kvc k m v h hv]
    exact ⟨rfl, rfl, by rw [h2]⟩

/-- C17 on a store that maps `"a"` to `"old"`, at the hit `Get("a")`. -/
theorem C17_Get_leaves_store_witness :
    (kvc0.Get "a").1.cache = kvc0.cache ∧
    (kvc0.Get "a").1.writeRequests = kvc0.writeRequests ∧
    ((kvc0.Get "a").1.Get "a").2 = (kvc0.Get "a").2 :=
  C17_Get_leaves_store kvc0 ⟨[("a", "old")]⟩ "a" rfl

/-- C20: on a cache whose store is allocated, `Put(k, v)` leaves the lookup of
every other key `j` as it was, and `readRequests` and `servedFromCache`
unchanged: the cache afterwards is the cache before with `k` assigned `v` in
the store and `writeRequests` incremented. -/
theorem C20_Put_leaves_other_keys (kvc : KeyValueCache) (m : GoMap) (k v j : String)
    (h : kvc.cache = some m) (hj : j ≠ k) :
    index (kvc.Put k v).1.cache j = index kvc.cache j ∧
    (kvc.Put k v).1.readRequests = kvc.readRequests ∧
    (kvc.Put k v).1.servedFromCache = kvc.servedFromCache ∧
    (kvc.Put k v).1 =
      { kvc with cache := some (m.insert k v), writeRequests := incr kvc.writeRequests } := by
  rw [Put_alloc kvc k v m h]
  simp [index, h, GoMap.lookup_insert_ne m k v j hj]

/-- C20 on a store that maps `"a"` to `"old"`, at `Put("b", "new")` and the key `"a"`. -/
theorem C20_Put_leaves_other_keys_witness :
    index (kvc0.Put "b" "new").1.cache "a" = index kvc0.cache "a" ∧
    (kvc0.Put "b" "new").1.readRequests = kvc0.readRequests ∧
    (kvc0.Put "b" "new").1.servedFromCache = kvc0.servedFromCache ∧
    (kvc0.Put "b" "new").1 =
      { kvc0 with cache := some (GoMap.insert ⟨[("a", "old")]⟩ "b" "new"),
                  writeRequests := incr kvc0.writeRequests } :=
  C20_Put_leaves_other_keys kvc0 ⟨[("a", "old")]⟩ "b" "new" "a" rfl (by decide)

/-! ## The connection set-up: the three outcomes -/

/-- C18: the connection set-up always ends in one of three ways: a conflict
(exit status 1, no connector call), one call of `ConnectByComponents`, or one
call of `ConnectByDefaultsFile`.  It is the conflict exactly when host and
socket are both non-empty or socket is non-empty and port non-zero; it is
`ConnectByComponents` exactly when there is no conflict and host or socket is
non-empty; it is `ConnectByDefaultsFile` exactly when host and socket are both
empty. -/
theorem C18_resolution_outcomes (env : Env) (f : Flags) :
    ((main_connect env f).2 = Except.error 1 ∧ connectorCalls (main_connect env f).1 = [] ∨
      (main_connect env f).2 = Except.ok () ∧ (connectorCalls (main_connect env f).1).length = 1) ∧
    ((main_connect env f).2 = Except.error 1 ↔ Conflict f) ∧
    ((∃ components,
        connectorCalls (main_connect env f).1 = [Event.ConnectByComponents components]) ↔
      ¬ Conflict f ∧ (f.flag_host ≠ "" ∨ f.flag_socket ≠ "")) ∧
    (connectorCalls (main_connect env f).1 = [Event.ConnectByDefaultsFile f.flag_defaults_file] ↔
      f.flag_host = "" ∧ f.flag_socket = "") := by
  by_cases hh : f.flag_host = "" <;> by_cases hs : f.flag_socket = "" <;>
    by_cases hp : f.flag_port = 0 <;> by_cases hd : f.flag_defaults_file = "" <;>
    simp [main_connect, connectorCalls, Conflict, hh, hs, hp, hd]

/-! ## `main`: the positional arguments and the exit status -/

theorem main_args_too_many (args : List String) (h : 2 < args.length) :
    main_args args = ([Event.usage], Except.error 1) := by
  simp [main_args, h]

theorem main_args_one (a : String) :
    main_args [a] =
      match Atoi a with
      | Except.error err => ([Event.FatalAtoi "Unable to parse delay: " err], Except.error 1)
      | Except.ok delay => ([], Except.ok (delay, 0)) := by
  cases h : Atoi a <;> simp [main_args, h]

theorem main_args_two (a b : String) :
    main_args [a, b] =
      match Atoi a with
      | Except.error err => ([Event.FatalAtoi "Unable to parse delay: " err], Except.error 1)
      | Except.ok delay =>
        match Atoi b with
        | Except.error err => ([Event.FatalAtoi "Unable to parse count: " err], Except.error 1)
        | Except.ok count => ([], Except.ok (delay, count)) := by
  cases h : Atoi a <;> cases h' : Atoi b <;> simp [main_args, h, h']

theorem digitChar_lt_ten (k : Nat) (h : k < 10) :
    (Nat.digitChar k).isDigit = true ∧ (Nat.digitChar k).toNat - '0'.toNat = k ∧
    Nat.digitChar k ≠ '-' ∧ Nat.digitChar k ≠ '+' := by
  interval_cases k <;> decide

theorem toDigitsCore_decimal (fuel : Nat) :
    ∀ (n : Nat) (ds : List Char), n < fuel →
      ∃ pre, Nat.toDigitsCore 10 fuel n ds = pre ++ ds ∧ pre ≠ [] ∧
        (∀ c ∈ pre, c.isDigit = true) ∧
        (∀ acc, pre.foldl (fun acc ch => 10 * acc + (ch.toNat - '0'.toNat)) acc = 
           acc * 10 ^ pre.length + n) ∧ (∀ c, pre.head? = some c → c ≠ '-' ∧ c ≠ '+')  := by
  induction fuel with
  | zero => intro n ds h; omega
  | succ fuel ih =>
    intro n ds h
    have hd := digitChar_lt_ten (n % 10) (Nat.mod_lt _ (by norm_num))
    have hv : (Nat.digitChar (n % 10)).toNat - 48 = n % 10 := hd.2.1
    have hn := Nat.div_add_mod n 10
    simp only [Nat.toDigitsCore]
    by_cases h0 : n / 10 = 0
    · refine ⟨[Nat.digitChar (n % 10)], by simp [h0], by simp, by simpa using hd.1, ?_, ?_⟩
      · intro acc
        simp only [List.foldl, List.length_singleton, pow_one]
        show 10 * acc + ((Nat.digitChar (n % 10)).toNat - 48) = acc * 10 + n
        omega
      · intro c hc
        simp at hc
        subst hc
        exact hd.2.2
    · obtain ⟨pre, h1, h2, h3, h4, h5⟩ := ih (n / 10) (Nat.digitChar (n % 10) :: ds) (by omega)
      refine ⟨pre ++ [Nat.digitChar (n % 10)], by simp [h0, h1], by simp, ?_, ?_, ?_⟩
      · intro c hc
        simp at hc
        rcases hc with hc | hc
        · exact h3 c hc
        · subst hc; exact hd.1
      · intro acc
        rw [List.foldl_append, h4]
        simp only [List.foldl, List.length_append, List.length_singleton, pow_succ]
        show 10 * (acc * 10 ^ pre.length + n / 10) + ((Nat.digitChar (n % 10)).toNat - 48) =
          acc * (10 ^ pre.length * 10) + n
        rw [hv]
        have : 10 * (acc * 10 ^ pre.length + n / 10) = acc * (10 ^ pre.length * 10) + 10 * (n / 10) := by
          ring
        omega
      · intro c hc
        cases pre with
        | nil => exact absurd rfl h2
        | cons x xs =>
          simp at hc
          subst hc
          exact h5 x rfl

theorem toDigits_decimal (n : Nat) :
    Nat.toDigits 10 n ≠ [] ∧ (∀ c ∈ Nat.toDigits 10 n, c.isDigit = true) ∧
    (Nat.toDigits 10 n).foldl (fun acc ch => 10 * acc + (ch.toNat - '0'.toNat)) 0 = n ∧
    (∀ c, (Nat.toDigits 10 n).head? = some c → c ≠ '-' ∧ c ≠ '+') := by
  obtain ⟨pre, h1, h2, h3, h4, h5⟩ := toDigitsCore_decimal (n + 1) n [] (by omega)
  have : Nat.toDigits 10 n = pre := by simp [Nat.toDigits, h1]
  rw [this]
  exact ⟨h2, h3, by simpa using h4 0, h5⟩

theorem Atoi_digits (L : List Char) (hne : L ≠ []) (hall : ∀ c ∈ L, c.isDigit = true)
    (hhead : ∀ c, L.head? = some c → c ≠ '-' ∧ c ≠ '+')
    (hr : L.foldl (fun acc ch => 10 * acc + (ch.toNat - '0'.toNat)) 0 < 2 ^ 63) :
    Atoi (String.mk L) =
      Except.ok ((L.foldl (fun acc ch => 10 * acc + (ch.toNat - '0'.toNat)) 0 : Nat) : Int) := by
  unfold Atoi
  have hl : (String.mk L).toList = L := rfl
  rw [hl]
  split
  · exact absurd rfl (hhead '-' rfl).1
  · exact absurd rfl (hhead '+' rfl).2
  · have hall' : L.all Char.isDigit = true := by simpa using hall
    simp only [hne, hall', false_or, not_true_eq_false, if_false]
    generalize L.foldl (fun acc ch => 10 * acc + (ch.toNat - '0'.toNat)) 0 = v at hr ⊢
    rw [if_neg]
    · simp
    · simp only [Bool.false_eq_true, if_false]
      omega

theorem Atoi_minus_digits (L : List Char) (hne : L ≠ []) (hall : ∀ c ∈ L, c.isDigit = true)
    (hr : L.foldl (fun acc ch => 10 * acc + (ch.toNat - '0'.toNat)) 0 ≤ 2 ^ 63) :
    Atoi (String.mk ('-' :: L)) =
      Except.ok (-((L.foldl (fun acc ch => 10 * acc + (ch.toNat - '0'.toNat)) 0 : Nat) : Int)) := by
  unfold Atoi
  have hl : (String.mk ('-' :: L)).toList = '-' :: L := rfl
  rw [hl]
  have hall' : L.all Char.isDigit = true := by simpa using hall
  simp only [hne, hall', false_or, not_true_eq_false, if_false]
  generalize L.foldl (fun acc ch => 10 * acc + (ch.toNat - '0'.toNat)) 0 = v at hr ⊢
  rw [if_neg]
  · simp
  · simp only [if_true]
    omega

/-- `strconv.Atoi` reads the decimal rendering of every 64-bit integer back. -/
theorem Atoi_Sprintf_d (d : Int) (h1 : -(2 ^ 63 : Int) ≤ d) (h2 : d < (2 ^ 63 : Int)) :
    Atoi (Sprintf_d d) = Except.ok d := by
  cases d with
  | ofNat n =>
    obtain ⟨a1, a2, a3, a4⟩ := toDigits_decimal n
    have hs : Sprintf_d (Int.ofNat n) = String.mk (Nat.toDigits 10 n) := rfl
    rw [hs, Atoi_digits _ a1 a2 a4 (by rw [a3]; have h2' : (n : Int) < 2 ^ 63 := h2; omega), a3]
    rfl
  | negSucc n =>
    obtain ⟨a1, a2, a3, a4⟩ := toDigits_decimal (n + 1)
    have hs : Sprintf_d (Int.negSucc n) = String.mk ('-' :: Nat.toDigits 10 (n + 1)) := rfl
    rw [hs, Atoi_minus_digits _ a1 a2 (by rw [a3]; have := Int.negSucc_eq n; omega), a3]
    rfl

/-- C13: with more than two positional arguments `main` calls `usage()` and
exits with status 1 without parsing any of them; with none, `delay = 1` and
`count = 0`; with one that `strconv.Atoi` reads as `d`, `delay = d` and
`count = 0`; with two read as `d` and `c`, `delay = d` and `count = c` (so
`["2", "5"]` gives 2 and 5, and so for the decimal renderings of any two
64-bit integers); with at most two of which the first, or else the
second, is rejected by `strconv.Atoi`, `log.Fatal` ends the process (so for
`["x"]`). -/
theorem C13_positional_args :
    (∀ args : List String, 2 < args.length →
      main_args args = ([Event.usage], Except.error 1)) ∧
    main_args ["a", "b", "c", "d"] = ([Event.usage], Except.error 1) ∧
    main_args [] = ([], Except.ok (1, 0)) ∧
    (∀ (a : String) (d : Int), Atoi a = Except.ok d → main_args [a] = ([], Except.ok (d, 0))) ∧
    (∀ (a b : String) (d c : Int), Atoi a = Except.ok d → Atoi b = Except.ok c →
      main_args [a, b] = ([], Except.ok (d, c))) ∧
    main_args ["2", "5"] = ([], Except.ok (2, 5)) ∧
    (∀ d c : Int, -(2 ^ 63 : Int) ≤ d → d < (2 ^ 63 : Int) → -(2 ^ 63 : Int) ≤ c →
      c < (2 ^ 63 : Int) →
      main_args [Sprintf_d d] = ([], Except.ok (d, 0)) ∧
      main_args [Sprintf_d d, Sprintf_d c] = ([], Except.ok (d, c))) ∧
    (∀ (a : String) (rest : List String) (e : NumError), rest.length ≤ 1 →
      Atoi a = Except.error e →
      main_args (a :: rest) = ([Event.FatalAtoi "Unable to parse delay: " e], Except.error 1)) ∧
    (∀ (a b : String) (d : Int) (e : NumError), Atoi a = Except.ok d → Atoi b = Except.error e →
      main_args [a, b] = ([Event.FatalAtoi "Unable to parse count: " e], Except.error 1)) ∧
    main_args ["x"] =
      ([Event.FatalAtoi "Unable to parse delay: " NumError.ErrSyntax], Except.error 1) := by
  refine ⟨main_args_too_many, by decide, by decide, ?_, ?_, by decide, ?_, ?_, ?_, by decide⟩
  · intro a d h
    rw [main_args_one, h]
  · intro a b d c h h'
    rw [main_args_two, h, h']
  · intro d c hd hd' hc hc'
    rw [main_args_one, main_args_two, Atoi_Sprintf_d d hd hd', Atoi_Sprintf_d c hc hc']
    exact ⟨rfl, rfl⟩
  · intro a rest e hr h
    match rest, hr with
    | [], _ => rw [main_args_one, h]
    | [b], _ => rw [main_args_two, h]
  · intro a b d e h h'
    rw [main_args_two, h, h']

theorem exitStatus_andThen {α β : Type} (p : Proc α) (k : α → Proc β) :
    exitStatus (Proc.andThen p k) =
      match p.2 with
      | Except.error status => status
      | Except.ok a => exitStatus (k a) := by
  unfold Proc.andThen exitStatus
  cases p.2 <;> rfl

theorem main_args_cases (args : List String) :
    (ArgsError args ∧ (main_args args).2 = Except.error 1) ∨
    (¬ ArgsError args ∧ ∃ dc, (main_args args).2 = Except.ok dc) := by
  match args with
  | [] => right; exact ⟨by decide, (1, 0), rfl⟩
  | [a] =>
    rw [main_args_one]
    cases h : Atoi a <;> simp [ArgsError, parses, h]
  | [a, b] =>
    rw [main_args_two]
    cases h : Atoi a <;> cases h' : Atoi b <;> simp [ArgsError, parses, h, h']
  | a :: b :: c :: rest =>
    left
    have hl : 2 < (a :: b :: c :: rest).length := by simp
    exact ⟨Or.inl hl, by rw [main_args_too_many _ hl]⟩

theorem main_cpuprofile_cases (env : Env) (f : Flags) :
    (ProfileError env f ∧ (main_cpuprofile env f).2 = Except.error 1) ∨
    (¬ ProfileError env f ∧ ∃ profiling, (main_cpuprofile env f).2 = Except.ok profiling) := by
  by_cases hc : f.cpuprofile = ""
  · simp [main_cpuprofile, ProfileError, hc]
  · cases h : env.Create f.cpuprofile <;> simp [main_cpuprofile, ProfileError, hc, h]

theorem main_info_cases (env : Env) (f : Flags) (profiling : Bool) :
    ((f.flag_version = true ∨ f.flag_help = true) ∧
      (main_info env f profiling).2 = Except.error 0) ∨
    (f.flag_version = false ∧ f.flag_help = false ∧
      (main_info env f profiling).2 = Except.ok ()) := by
  cases hv : f.flag_version <;> cases hh : f.flag_help <;> simp [main_info, hv, hh]

theorem main_connect_cases (env : Env) (f : Flags) :
    (Conflict f ∧ (main_connect env f).2 = Except.error 1) ∨
    (¬ Conflict f ∧ (main_connect env f).2 = Except.ok ()) := by
  by_cases hh : f.flag_host = "" <;> by_cases hs : f.flag_socket = "" <;>
    by_cases hp : f.flag_port = 0 <;> by_cases hd : f.flag_defaults_file = "" <;>
    simp [main_connect, Conflict, hh, hs, hp, hd]

theorem exitStatus_main_parsed (env : Env) (f : Flags) (args : List String) :
    exitStatus (main_parsed env f args) =
      if ArgsError args ∨ ProfileError env f ∨
          (f.flag_version = false ∧ f.flag_help = false ∧ Conflict f) then 1 else 0 := by
  unfold main_parsed
  rw [exitStatus_andThen]
  rcases main_args_cases args with ⟨ha, h⟩ | ⟨ha, dc, h⟩
  · simp [h, ha]
  · rw [h]
    simp only []
    rw [exitStatus_andThen]
    rcases main_cpuprofile_cases env f with ⟨hp, h⟩ | ⟨hp, profiling, h⟩
    · simp [h, hp]
    · rw [h]
      simp only []
      rw [exitStatus_andThen]
      rcases main_info_cases env f profiling with ⟨hi, h⟩ | ⟨hv, hh, h⟩
      · rw [h]
        rcases hi with hi | hi <;> simp [ha, hp, hi]
      · rw [h]
        simp only []
        rw [exitStatus_andThen]
        simp only []
        rw [exitStatus_andThen]
        rcases main_connect_cases env f with ⟨hc, h⟩ | ⟨hc, h⟩
        · simp [h, ha, hp, hv, hh, hc]
        · simp [h, ha, hp, hv, hh, hc, exitStatus]

/-- C14, as the claim states it, fails: `--help` with three positional
arguments ends with status 1 (the usage error comes first), and so does
`--version` with the positional argument `x` (the parse failure comes first). -/
theorem C14_help_after_args :
    ({ flags0 with flag_help := true } : Flags).flag_help = true ∧
    exitStatus (main env0
      (CommandLine.parsed { flags0 with flag_help := true } ["a", "b", "c"])) = 1 ∧
    ({ flags0 with flag_version := true } : Flags).flag_version = true ∧
    exitStatus (main env0 (CommandLine.parsed { flags0 with flag_version := true } ["x"])) = 1 := by
  decide

/-- C14 (amended): on a command line that `flag.Parse()` rejects (a flag that
is not defined, say, next to `--help`) the exit status of `main` is 2, and on
`-h` it is the status the `flag` package gives.  On a command line that
`flag.Parse()` accepts, the status is 1 exactly when there are more than two positional
arguments, or the first or second one fails to parse, or the CPU profile file
cannot be created (these three whether or not `--help` or `--version` is
given), or the connection flags conflict on a command line without `--help`
and `--version`; it is 0 otherwise.  So with `--help` or `--version` on a
command line that `flag.Parse()` accepts, with at most two positional
arguments that parse, and no failure to create a profile file, the status is
0 whatever the other flags are. -/
theorem C14_exit_status (env : Env) :
    (∀ message, exitStatus (main env (CommandLine.rejected message)) = 2) ∧
    exitStatus (main env CommandLine.helpRequested) = env.ErrHelpStatus ∧
    (∀ f args, exitStatus (main env (CommandLine.parsed f args)) = 1 ↔
      ArgsError args ∨ ProfileError env f ∨
        (f.flag_version = false ∧ f.flag_help = false ∧ Conflict f)) ∧
    (∀ f args, exitStatus (main env (CommandLine.parsed f args)) ≠ 1 →
      exitStatus (main env (CommandLine.parsed f args)) = 0) ∧
    (∀ f args, (f.flag_help = true ∨ f.flag_version = true) → ¬ ArgsError args →
      ¬ ProfileError env f → exitStatus (main env (CommandLine.parsed f args)) = 0) := by
  have hp : ∀ f args, main env (CommandLine.parsed f args) = main_parsed env f args := by
    intro f args
    rfl
  refine ⟨fun _ => rfl, rfl, ?_, ?_, ?_⟩
  · intro f args
    rw [hp, exitStatus_main_parsed]
    split <;> simp_all
  · intro f args
    rw [hp, exitStatus_main_parsed]
    split <;> simp_all
  · intro f args hi ha hpr
    rw [hp, exitStatus_main_parsed]
    rcases hi with hi | hi <;> simp [ha, hpr, hi]

/-- C14 (amended) at `--help --host=db1 --socket=/tmp/s` with the arguments
`2 5`: status 0; and at a command line that `flag.Parse()` rejects: status 2. -/
theorem C14_exit_status_witness :
    exitStatus (main env0 (CommandLine.parsed
      { flags0 with flag_help := true, flag_host := "db1", flag_socket := "/tmp/s" }
      ["2", "5"])) = 0 ∧
    exitStatus (main env0
      (CommandLine.rejected "flag provided but not defined: -nope")) = 2 :=
  ⟨(C14_exit_status env0).2.2.2.2
      { flags0 with flag_help := true, flag_host := "db1", flag_socket := "/tmp/s" }
      ["2", "5"] (Or.inl rfl) (by decide) (by decide),
   (C14_exit_status env0).1 "flag provided but not defined: -nope"⟩

/-! ## The cache: statistics and results of a whole sequence of calls -/

theorem run_cons (kvc : KeyValueCache) (op : Op) (ops : List Op) :
    run kvc (op :: ops) = run (step kvc op) ops := by
  simp [run]

theorem step_Valid (kvc : KeyValueCache) (op : Op) (h : kvc.Valid) : (step kvc op).Valid := by
  obtain ⟨hr, hs, hw⟩ := h
  unfold Valid
  cases op with
  | Get key =>
    cases hc : kvc.cache with
    | none =>
      simp only [step, Get_nil kvc key hc]
      decide
    | some m =>
      cases hv : m.lookup key with
      | none =>
        simp only [step, Get_miss kvc key m hc hv]
        exact ⟨IsInt_incr _, hs, hw⟩
      | some v =>
        simp only [step, Get_hit kvc key m v hc hv]
        exact ⟨IsInt_incr _, IsInt_incr _, hw⟩
  | Put key value =>
    cases hc : kvc.cache with
    | none =>
      simp only [step, Put_nil kvc key value hc]
      exact ⟨hr, hs, IsInt_incr _⟩
    | some m =>
      simp only [step, Put_alloc kvc key value m hc]
      exact ⟨hr, hs, IsInt_incr _⟩
  | Statistics => exact ⟨hr, hs, hw⟩

theorem wrapInt_incr_add (x : Int) (n : Nat) :
    wrapInt (incr x + (n : Int)) = wrapInt (x + ((n + 1 : Nat) : Int)) := by
  unfold incr wrapInt
  push_cast
  omega

theorem countGets_le (ops : List Op) : countGets ops ≤ ops.length := by
  induction ops with
  | nil => simp [countGets]
  | cons op ops ih =>
    cases op <;> simp only [countGets, List.length_cons] <;> omega

theorem countPuts_le (ops : List Op) : countPuts ops ≤ ops.length := by
  induction ops with
  | nil => simp [countPuts]
  | cons op ops ih =>
    cases op <;> simp only [countPuts, List.length_cons] <;> omega

theorem countHits_le (ops : List Op) : ∀ seen, countHits seen ops ≤ ops.length := by
  induction ops with
  | nil => intro seen; simp [countHits]
  | cons op ops ih =>
    intro seen
    cases op with
    | Get key =>
      have := ih seen
      simp only [countHits, List.length_cons]
      split <;> omega
    | Put key value =>
      have := ih (key :: seen)
      simp only [countHits, List.length_cons]
      omega
    | Statistics =>
      have := ih seen
      simp only [countHits, List.length_cons]
      omega

theorem run_counters (ops : List Op) :
    ∀ (kvc : KeyValueCache) (m : GoMap) (seen : List String), kvc.Valid → kvc.cache = some m →
      (∀ k, (m.lookup k).isSome ↔ k ∈ seen) →
      (run kvc ops).readRequests = wrapInt (kvc.readRequests + (countGets ops : Int)) ∧
      (run kvc ops).servedFromCache =
        wrapInt (kvc.servedFromCache + (countHits seen ops : Int)) ∧
      (run kvc ops).writeRequests = wrapInt (kvc.writeRequests + (countPuts ops : Int)) := by
  induction ops with
  | nil =>
    intro kvc m seen hval _ _
    obtain ⟨hr, hs, hw⟩ := hval
    simp [run, countGets, countHits, countPuts, wrapInt_of_IsInt _ hr, wrapInt_of_IsInt _ hs,
      wrapInt_of_IsInt _ hw]
  | cons op ops ih =>
    intro kvc m seen hval hc hseen
    have hval' := step_Valid kvc op hval
    rw [run_cons]
    cases op with
    | Get key =>
      cases hv : m.lookup key with
      | none =>
        have hk : key ∉ seen := by
          intro hk
          have := (hseen key).2 hk
          simp [hv] at this
        obtain ⟨h1, h2, h3⟩ := ih (step kvc (Op.Get key)) m seen hval'
          (by simp [step, Get_miss kvc key m hc hv, hc]) hseen
        rw [h1, h2, h3]
        simp only [step, Get_miss kvc key m hc hv, countGets, countHits, countPuts, hk,
          if_false, wrapInt_incr_add]
        simp
      | some v =>
        have hk : key ∈ seen := (hseen key).1 (by simp [hv])
        obtain ⟨h1, h2, h3⟩ := ih (step kvc (Op.Get key)) m seen hval'
          (by simp [step, Get_hit kvc key m v hc hv, hc]) hseen
        rw [h1, h2, h3]
        simp only [step, Get_hit kvc key m v hc hv, countGets, countHits, countPuts, hk,
          if_true, wrapInt_incr_add]
        refine ⟨trivial, ?_, trivial⟩
        congr 1
        push_cast
        omega
    | Put key value =>
      have hseen' : ∀ k, ((m.insert key value).lookup k).isSome ↔ k ∈ key :: seen := by
        intro k
        by_cases hk : k = key
        · subst hk
          simp [GoMap.lookup_insert_self]
        · rw [GoMap.lookup_insert_ne m key value k hk, hseen k]
          simp [hk]
      obtain ⟨h1, h2, h3⟩ := ih (step kvc (Op.Put key value)) (m.insert key value) (key :: seen)
        hval' (by simp [step, Put_alloc kvc key value m hc]) hseen'
      rw [h1, h2, h3]
      simp only [step, Put_alloc kvc key value m hc, countGets, countHits, countPuts,
        wrapInt_incr_add]
      simp
    | Statistics =>
      obtain ⟨h1, h2, h3⟩ := ih (step kvc Op.Statistics) m seen hval'
        (by simpa [step, Statistics] using hc) hseen
      rw [h1, h2, h3]
      simp [step, Statistics, countGets, countHits, countPuts]

theorem run_lookup (ops : List Op) :
    ∀ (kvc : KeyValueCache) (m : GoMap), kvc.cache = some m →
      ∃ m', (run kvc ops).cache = some m' ∧
        ∀ k, m'.lookup k =
          match lastPut k ops with
          | some v => some v
          | none => m.lookup k := by
  induction ops with
  | nil => intro kvc m hc; exact ⟨m, by simpa [run] using hc, by simp [lastPut]⟩
  | cons op ops ih =>
    intro kvc m hc
    rw [run_cons]
    cases op with
    | Get key =>
      have hc' : (step kvc (Op.Get key)).cache = some m := by
        cases hv : m.lookup key with
        | none => simp [step, Get_miss kvc key m hc hv, hc]
        | some v => simp [step, Get_hit kvc key m v hc hv, hc]
      obtain ⟨m', h1, h2⟩ := ih _ m hc'
      exact ⟨m', h1, by simpa [lastPut] using h2⟩
    | Put key value =>
      obtain ⟨m', h1, h2⟩ := ih (step kvc (Op.Put key value)) (m.insert key value)
        (by simp [step, Put_alloc kvc key value m hc])
      refine ⟨m', h1, ?_⟩
      intro k
      rw [h2 k]
      cases hl : lastPut k ops with
      | some later => simp [lastPut, hl]
      | none =>
        by_cases hk : key = k
        · subst hk
          simp [lastPut, hl, GoMap.lookup_insert_self]
        · simp [lastPut, hl, hk, GoMap.lookup_insert_ne m key value k (Ne.symm hk)]
    | Statistics =>
      obtain ⟨m', h1, h2⟩ := ih (step kvc Op.Statistics) m (by simpa [step, Statistics] using hc)
      exact ⟨m', h1, by simpa [lastPut] using h2⟩

/-- C19: after a sequence of calls on the cache `NewKeyValueCache()` returns
that starts with a `Get`, `Statistics()` returns, as 64-bit `int`s, the number
of `Get` calls, the number of `Get` calls whose key was passed to an earlier
`Put`, and the number of `Put` calls: these numbers themselves after every
sequence of at most `MaxInt` calls; and each `Get` of the sequence returns the
value of the most recent earlier `Put` of its key, or `""` with the error
`Not found` when there is none. -/
theorem C19_statistics_and_results (key : String) (ops : List Op) :
    (run NewKeyValueCache (Op.Get key :: ops)).Statistics.2 =
      (wrapInt (countGets (Op.Get key :: ops) : Int),
        wrapInt (countHits [] (Op.Get key :: ops) : Int),
        wrapInt (countPuts (Op.Get key :: ops) : Int)) ∧
    ((((Op.Get key :: ops).length : Nat) : Int) ≤ MaxInt →
      (run NewKeyValueCache (Op.Get key :: ops)).Statistics.2 =
        ((countGets (Op.Get key :: ops) : Int), (countHits [] (Op.Get key :: ops) : Int),
          (countPuts (Op.Get key :: ops) : Int))) ∧
    (∀ (pre post : List Op) (k : String), Op.Get key :: ops = pre ++ Op.Get k :: post →
      ((run NewKeyValueCache pre).Get k).2 =
        match lastPut k pre with
        | some v => (v, none)
        | none => ("", some "Not found")) := by
  have h0 : step NewKeyValueCache (Op.Get key) =
      { cache := some GoMap.make, readRequests := 1, servedFromCache := 0,
        writeRequests := 0 } := by
    simp [step, Get_nil NewKeyValueCache key rfl]
  have hstats : (run NewKeyValueCache (Op.Get key :: ops)).Statistics.2 =
      (wrapInt (countGets (Op.Get key :: ops) : Int),
        wrapInt (countHits [] (Op.Get key :: ops) : Int),
        wrapInt (countPuts (Op.Get key :: ops) : Int)) := by
    obtain ⟨h1, h2, h3⟩ := run_counters ops (step NewKeyValueCache (Op.Get key)) GoMap.make []
      (by rw [h0]; decide) (by rw [h0]) (by simp [GoMap.make, GoMap.lookup, GoMap.find])
    rw [h0] at h1 h2 h3
    rw [run_cons, h0]
    simp only [Statistics, h1, h2, h3, countGets, countHits, countPuts]
    simp only [Prod.mk.injEq]
    refine ⟨?_, ?_, ?_⟩ <;> congr 1 <;> omega
  refine ⟨hstats, ?_, ?_⟩
  · intro hlen
    rw [hstats]
    have hg := countGets_le (Op.Get key :: ops)
    have hh := countHits_le (Op.Get key :: ops) []
    have hp := countPuts_le (Op.Get key :: ops)
    have hid : ∀ n : Nat, n ≤ (Op.Get key :: ops).length → wrapInt (n : Int) = (n : Int) := by
      intro n hn
      apply wrapInt_of_IsInt
      unfold IsInt MinInt
      unfold MaxInt at hlen ⊢
      omega
    rw [hid _ hg, hid _ hh, hid _ hp]
  · intro pre post k hsplit
    cases pre with
    | nil =>
      simp [run, lastPut, Get_nil NewKeyValueCache k rfl]
    | cons op pre' =>
      simp only [List.cons_append, List.cons.injEq] at hsplit
      obtain ⟨hop, -⟩ := hsplit
      subst hop
      rw [run_cons]
      obtain ⟨m', h1, h2⟩ := run_lookup pre' (step NewKeyValueCache (Op.Get key)) GoMap.make
        (by rw [h0])
      have hl := h2 k
      cases hv : lastPut k pre' with
      | none =>
        rw [hv] at hl
        simp only [GoMap.make, GoMap.lookup, GoMap.find] at hl
        rw [Get_miss _ k m' h1 (by simpa [GoMap.lookup] using hl)]
        simp [lastPut, hv]
      | some v =>
        rw [hv] at hl
        rw [Get_hit _ k m' v h1 (by simpa using hl)]
        simp [lastPut, hv]

/-- C19 on `Get("a")`, `Put("a", "b")`, `Get("a")`, `Get("c")`: the statistics
are `(3, 1, 1)`. -/
theorem C19_statistics_and_results_witness :
    (run NewKeyValueCache
      [Op.Get "a", Op.Put "a" "b", Op.Get "a", Op.Get "c"]).Statistics.2 = (3, 1, 1) :=
  (C19_statistics_and_results "a" [Op.Put "a" "b", Op.Get "a", Op.Get "c"]).2.1 (by decide)

end PsTop
